import Mathlib

/-!
Shallow embedding of the `study_ants` simulation core
(`ants_project/src/{tile,grid,ant,pheromone,ants_game_manager}.rs`).

Conventions of the embedding:
* Rust `u32`/`u8`/`usize` become `Nat`.  `saturating_sub` is `Nat` subtraction
  (which already truncates at zero); the unchecked `u8` increment `+= 1`
  is modelled as `(v + 1) % 256`, its release-mode wrapping behaviour.
* Rust `f32` values (Q-values, rewards, rates) are modelled exactly as `Rat`.
  The `-f32::INFINITY` running maximum of `get_best_action` is modelled as
  `Option Rat` with `none` playing the role of minus infinity; all stored
  values are finite, exactly as in the source.
* The thread-local RNG used by `choose_action` is modelled as an explicit
  oracle `Nat → Rat × Fin 4`: each acting ant consumes one pair
  (the uniform draw compared against epsilon, and the uniform action index).
* Fallible in-place mutation (`Vec` indexing guarded by bounds checks in the
  source) becomes `List.set`, which is a no-op out of range exactly where the
  source guards with `if idx < len`.
-/

namespace StudyAnts

/-- The five actions of `pheromone.rs::Action`. -/
inductive Action where
  | Up
  | Down
  | Left
  | Right
  | Stay
deriving DecidableEq, Repr

/-- `Action::to_usize` — discriminant of the action. -/
def Action.to_usize : Action → Nat
  | .Up => 0
  | .Down => 1
  | .Left => 2
  | .Right => 3
  | .Stay => 4

/-- `ant.rs::AntsType`. -/
inductive AntsType where
  | EXPLORER
  | FIGHTER
  | PICKER
deriving DecidableEq, Repr

/-- `ant.rs::AntsMode`. -/
inductive AntsMode where
  | FINDING
  | RETURNING
deriving DecidableEq, Repr

/-- `ant.rs::Ant` (all fields public in the source). -/
structure Ant where
  ant_type : AntsType
  maximal_charge : Nat
  current_charge : Nat
  seconds_for_movement : Nat
  cooldown : Nat
  scope : Nat
  mode : AntsMode
  position : Option (Nat × Nat)
deriving DecidableEq, Repr

/-- `Ant::new` — per-type constants, FINDING, unspawned, cooldown 0. -/
def Ant.new (ant_type : AntsType) : Ant :=
  let c : Nat × Nat × Nat :=
    match ant_type with
    | .EXPLORER => (10, 5, 1)
    | .FIGHTER => (10, 5, 1)
    | .PICKER => (100, 10, 0)
  { ant_type := ant_type
    maximal_charge := c.1
    current_charge := 0
    seconds_for_movement := c.2.1
    scope := c.2.2
    mode := .FINDING
    position := none
    cooldown := 0 }

/-- `Ant::get_target_position` — destination of an action from the ant's
position (default `(0,0)` when unspawned); the lower bound saturates at zero
(`saturating_sub`, here plain `Nat` subtraction). -/
def Ant.get_target_position (a : Ant) (action : Action) : Nat × Nat :=
  let p := a.position.getD (0, 0)
  match action with
  | .Up => (p.1, p.2 - 1)
  | .Down => (p.1, p.2 + 1)
  | .Left => (p.1 - 1, p.2)
  | .Right => (p.1 + 1, p.2)
  | .Stay => (p.1, p.2)

/-- `Ant::move_to`. -/
def Ant.move_to (a : Ant) (x y : Nat) : Ant :=
  { a with position := some (x, y) }

/-- `tile.rs::TileType`. -/
inductive TileType where
  | Default
  | Wall
  | Nest (stored_food explorer_capacity picker_capacity fighter_capacity : Nat)
  | FoodSource (amount : Nat)
  | DeathZone
deriving DecidableEq, Repr

/-- `tile.rs::Tile`. -/
structure Tile where
  position : Nat × Nat
  tile_type : TileType
deriving DecidableEq, Repr

/-- `Tile::new` — a forced food amount overrides the given tile type. -/
def Tile.new (x y : Nat) (tile_type : TileType) (food_source : Option Nat) : Tile :=
  match food_source with
  | some forced_amount => { position := (x, y), tile_type := .FoodSource forced_amount }
  | none => { position := (x, y), tile_type := tile_type }

/-- `Tile::food_amount`. -/
def Tile.food_amount (t : Tile) : Option Nat :=
  match t.tile_type with
  | .FoodSource amount => some amount
  | _ => none

/-- `Tile::is_walkable` — everything but a wall. -/
def Tile.is_walkable (t : Tile) : Bool :=
  match t.tile_type with
  | .Wall => false
  | _ => true

/-- `Tile::is_lethal`. -/
def Tile.is_lethal (t : Tile) : Bool :=
  match t.tile_type with
  | .DeathZone => true
  | _ => false

/-- `Tile::has_food` — a food source with a strictly positive amount. -/
def Tile.has_food (t : Tile) : Bool :=
  match t.tile_type with
  | .FoodSource amount => amount > 0
  | _ => false

/-- `Tile::is_nest`. -/
def Tile.is_nest (t : Tile) : Bool :=
  match t.tile_type with
  | .Nest _ _ _ _ => true
  | _ => false

/-- `Tile::add_food_to_nest` — adds into `stored_food` on a nest tile,
no-op on any other tile. -/
def Tile.add_food_to_nest (t : Tile) (amount : Nat) : Tile :=
  match t.tile_type with
  | .Nest stored_food e p f =>
      { t with tile_type := .Nest (stored_food + amount) e p f }
  | _ => t

/-- `grid.rs::Grid` — row-major tiles, `tiles[(y*width+x)]`. -/
structure Grid where
  tiles : List Tile
  width : Nat
  height : Nat
deriving DecidableEq, Repr

/-- `Grid::new` — an all-Default grid, pushed row by row. -/
def Grid.new (width height : Nat) : Grid :=
  { tiles := (List.range (width * height)).map
      (fun i => Tile.new (i % width) (i / width) .Default none)
    width := width
    height := height }

/-- `Grid::new_with_tiles` — start from the all-Default grid and overwrite the
cell of every given in-bounds tile; out-of-bounds tiles are dropped silently. -/
def Grid.new_with_tiles (width height : Nat) (tiles : List Tile) : Grid :=
  let base := (Grid.new width height).tiles
  let placed := tiles.foldl
    (fun acc t =>
      if t.position.1 < width ∧ t.position.2 < height then
        acc.set (t.position.2 * width + t.position.1) t
      else acc)
    base
  { tiles := placed, width := width, height := height }

/-- `Grid::get_tile` — `none` out of bounds. -/
def Grid.get_tile (g : Grid) (pos : Nat × Nat) : Option Tile :=
  if pos.1 < g.width ∧ pos.2 < g.height then
    g.tiles[pos.2 * g.width + pos.1]?
  else none

/-- In-place update of the tile at `pos` (the model of writing through
`Grid::get_mut_tile`); a no-op out of bounds, where the source returns `None`. -/
def Grid.set_tile (g : Grid) (pos : Nat × Nat) (t : Tile) : Grid :=
  if pos.1 < g.width ∧ pos.2 < g.height then
    { g with tiles := g.tiles.set (pos.2 * g.width + pos.1) t }
  else g

/-- `Grid::get_nest_position` — position of the first nest-typed tile. -/
def Grid.get_nest_position (g : Grid) : Option (Nat × Nat) :=
  (g.tiles.find? (fun t => t.is_nest)).map (fun t => t.position)

/-- `Grid::add_food_to_nest` — locate the first nest tile, then mutate the
tile stored at that position.  The source panics (`expect`) when no nest
exists; every modelled call site guards with `is_nest`, which guarantees a
nest tile, so the `none` branch (identity here) is unreachable there. -/
def Grid.add_food_to_nest (g : Grid) (amount : Nat) : Grid :=
  match g.get_nest_position with
  | some pos =>
      match g.get_tile pos with
      | some t => g.set_tile pos (t.add_food_to_nest amount)
      | none => g
  | none => g

/-- `Grid::is_walkable` — false off-grid. -/
def Grid.is_walkable (g : Grid) (x y : Nat) : Bool :=
  match g.get_tile (x, y) with
  | some t => t.is_walkable
  | none => false

/-- `Grid::is_lethal` — false off-grid. -/
def Grid.is_lethal (g : Grid) (x y : Nat) : Bool :=
  match g.get_tile (x, y) with
  | some t => t.is_lethal
  | none => false

/-- `Grid::has_food` — false off-grid. -/
def Grid.has_food (g : Grid) (x y : Nat) : Bool :=
  match g.get_tile (x, y) with
  | some t => t.has_food
  | none => false

/-- `Grid::is_nest` — false off-grid. -/
def Grid.is_nest (g : Grid) (x y : Nat) : Bool :=
  match g.get_tile (x, y) with
  | some t => t.is_nest
  | none => false

/-- `Grid::is_food_remaining` — some food source still holds a positive
amount. -/
def Grid.is_food_remaining (g : Grid) : Bool :=
  g.tiles.any (fun t =>
    match t.tile_type with
    | .FoodSource amount => amount > 0
    | _ => false)

/-- `pheromone.rs::PheromoneMap` — `data[x][y]` holds the 5 action slots;
the pending buffer is an association list keyed by `(x, y, action index)`
(the source uses a `HashMap`, whose drain order does not affect the result
since every key addresses its own slot additively). -/
structure PheromoneMap where
  width : Nat
  height : Nat
  data : List (List (List Rat))
  pending_updates : List ((Nat × Nat × Nat) × Rat)
deriving DecidableEq, Repr

namespace PheromoneMap

/-- `PheromoneMap::new` — all slots zero, empty pending buffer. -/
def new (width height : Nat) : PheromoneMap :=
  { width := width
    height := height
    data := List.replicate width (List.replicate height (List.replicate 5 (0 : Rat)))
    pending_updates := [] }

/-- Read `data[x][y][a]` (zero default, used only where the source's
indexing is in bounds). -/
def read (data : List (List (List Rat))) (x y a : Nat) : Rat :=
  ((data.getD x []).getD y []).getD a 0

/-- Write `data[x][y][a]`, a no-op out of range. -/
def write (data : List (List (List Rat))) (x y a : Nat) (v : Rat) :
    List (List (List Rat)) :=
  data.set x ((data.getD x []).set y (((data.getD x []).getD y []).set a v))

/-- `PheromoneMap::get_q` — the stored value, or the `-1000.0` sentinel
out of bounds. -/
def get_q (m : PheromoneMap) (x y : Nat) (action : Action) : Rat :=
  if x ≥ m.width ∨ y ≥ m.height then -1000
  else read m.data x y action.to_usize

/-- Destination cell simulated inside `get_best_action` for a movement
action (the same saturating arithmetic as `Ant::get_target_position`). -/
def moveDest (x y : Nat) : Action → Nat × Nat
  | .Up => (x, y - 1)
  | .Down => (x, y + 1)
  | .Left => (x - 1, y)
  | .Right => (x + 1, y)
  | .Stay => (x, y)

/-- The skip test of `get_best_action`: a movement action is legal when its
destination is on the map and walkable. -/
def action_legal (m : PheromoneMap) (grid : Grid) (x y : Nat) (action : Action) : Bool :=
  let d := moveDest x y action
  !(decide (d.1 ≥ m.width) || decide (d.2 ≥ m.height) || !grid.is_walkable d.1 d.2)

/-- One iteration of the candidate loop of `get_best_action`: the running
maximum is `Option Rat` with `none` standing for the `-f32::INFINITY`
start value (every stored value is finite, so `val > -INFINITY` always
holds and corresponds to the `none` case). -/
def bestStep (m : PheromoneMap) (grid : Grid) (x y : Nat)
    (st : Action × Option Rat) (action : Action) : Action × Option Rat :=
  if action_legal m grid x y action then
    let val := m.get_q x y action
    match st.2 with
    | none => (action, some val)
    | some mv => if val > mv then (action, some val) else st
  else st

/-- The fixed candidate order of `get_best_action`. -/
def moving_actions : List Action := [.Up, .Down, .Left, .Right]

/-- `PheromoneMap::get_best_action` — best of the four movement actions by
strict comparison in fixed order, `Stay` when every candidate is skipped. -/
def get_best_action (m : PheromoneMap) (x y : Nat) (grid : Grid) : Action :=
  let r := moving_actions.foldl (bestStep m grid x y) (Action.Stay, none)
  match r.2 with
  | none => Action.Stay
  | some _ => r.1

/-- `PheromoneMap::get_max_q` — 0 out of bounds, else the maximum slot value
(`-f32::INFINITY` start, again as `Option Rat`; the slot list of a
constructed map is non-empty, so the maximum is attained). -/
def get_max_q (m : PheromoneMap) (x y : Nat) : Rat :=
  if x ≥ m.width ∨ y ≥ m.height then 0
  else
    let r := ((m.data.getD x []).getD y []).foldl
      (fun (mv : Option Rat) q =>
        match mv with
        | none => some q
        | some v => if q > v then some q else mv)
      none
    match r with
    | none => 0
    | some v => v

/-- Accumulate a delta under a key of the pending buffer: add into the
existing entry, or append a fresh entry
(`entry(key).or_insert(0.0) += delta`). -/
def pendingAdd (key : Nat × Nat × Nat) (delta : Rat) :
    List ((Nat × Nat × Nat) × Rat) → List ((Nat × Nat × Nat) × Rat)
  | [] => [(key, delta)]
  | e :: rest =>
      if e.1 = key then (e.1, e.2 + delta) :: rest
      else e :: pendingAdd key delta rest

/-- `PheromoneMap::queue_update` — accumulate a delta into the pending
buffer. -/
def queue_update (m : PheromoneMap) (x y : Nat) (action : Action) (delta : Rat) :
    PheromoneMap :=
  { m with pending_updates := pendingAdd (x, y, action.to_usize) delta m.pending_updates }

/-- The absolute value of `f32::abs`, written out so that it evaluates. -/
def ratAbs (v : Rat) : Rat :=
  if v < 0 then -v else v

/-- The near-zero snap of `apply_tick`: results whose absolute value is
below 0.001 become exactly 0. -/
def snap (v : Rat) : Rat :=
  if ratAbs v < 1 / 1000 then 0 else v

/-- `PheromoneMap::apply_tick` — drain the pending buffer into the table,
then evaporate every slot by `(1 - rate)` with the near-zero snap.
(Draining indexes `data[x][y][a]` without a bounds check; the source would
panic on an out-of-bounds pending key, which every modelled producer avoids.) -/
def apply_tick (m : PheromoneMap) (evaporation_rate : Rat) : PheromoneMap :=
  let drained := m.pending_updates.foldl
    (fun d e => write d e.1.1 e.1.2.1 e.1.2.2 (read d e.1.1 e.1.2.1 e.1.2.2 + e.2))
    m.data
  let evaporated := drained.map (fun col => col.map (fun cell =>
    cell.map (fun v => snap (v * (1 - evaporation_rate)))))
  { m with data := evaporated, pending_updates := [] }

end PheromoneMap

/-- The fields of `cli_args.rs::SimulationConfig` consumed by the simulation
core (the remaining fields — grid size, ant counts, tick limit, GUI options —
are read only by the excluded construction and CLI layers). -/
structure SimulationConfig where
  alpha : Rat
  gamma : Rat
  epsilon : Rat
  reward_food : Rat
  reward_nest : Rat
  reward_death : Rat
  reward_default : Rat
  nest_capacity : Nat
  pheromone_evaporation : Rat
deriving DecidableEq, Repr

/-- `ants_game_manager.rs::QLearningParams`. -/
structure QLearningParams where
  alpha : Rat
  gamma : Rat
  epsilon : Rat
deriving DecidableEq, Repr

/-- `ants_game_manager.rs::GameStateSnapshot` — a deep copy of the live
state at one tick. -/
structure GameStateSnapshot where
  grid : Grid
  ants : List Ant
  pheromones_food : PheromoneMap
  pheromones_nest : PheromoneMap
deriving DecidableEq, Repr

/-- `ants_game_manager.rs::AntsGameManager`. -/
structure AntsGameManager where
  grid : Grid
  ants : List Ant
  pheromones_food : PheromoneMap
  pheromones_nest : PheromoneMap
  rl_params : QLearningParams
  config : SimulationConfig
  history : List GameStateSnapshot
  current_tick_index : Nat
deriving DecidableEq, Repr

namespace AntsGameManager

/-- The snapshot of the live state. -/
def live_snapshot (m : AntsGameManager) : GameStateSnapshot :=
  { grid := m.grid
    ants := m.ants
    pheromones_food := m.pheromones_food
    pheromones_nest := m.pheromones_nest }

/-- `AntsGameManager::save_snapshot` — truncate the alternative future when
the index is behind the tail, push a deep copy of the live state, point the
index at the new tail (`len.saturating_sub(1)` is `Nat` subtraction). -/
def save_snapshot (m : AntsGameManager) : AntsGameManager :=
  let hist :=
    if m.current_tick_index < m.history.length - 1 then
      m.history.take (m.current_tick_index + 1)
    else m.history
  let hist := hist ++ [m.live_snapshot]
  { m with history := hist, current_tick_index := hist.length - 1 }

/-- `AntsGameManager::new` — build the grid from the given tiles, start with
fresh pheromone maps, and push the construction snapshot (tick 0). -/
def new (width height : Nat) (tiles : List Tile) (ants : List Ant)
    (config : SimulationConfig) : AntsGameManager :=
  save_snapshot
    { grid := Grid.new_with_tiles width height tiles
      ants := ants
      pheromones_food := PheromoneMap.new width height
      pheromones_nest := PheromoneMap.new width height
      rl_params := { alpha := config.alpha, gamma := config.gamma, epsilon := config.epsilon }
      config := config
      history := []
      current_tick_index := 0 }

/-- `AntsGameManager::restore_snapshot` — replace the live state with the
recorded snapshot and move the index when it is in range; a no-op otherwise. -/
def restore_snapshot (m : AntsGameManager) (index : Nat) : AntsGameManager :=
  match m.history[index]? with
  | some snapshot =>
      { m with
        grid := snapshot.grid
        ants := snapshot.ants
        pheromones_food := snapshot.pheromones_food
        pheromones_nest := snapshot.pheromones_nest
        current_tick_index := index }
  | none => m

/-- One ant's contribution to the density pass: increment the flat cell
counter of a positioned ant whose flat index is in range.  The counter is a
`u8` and the increment is the unchecked `+= 1`, modelled as wrapping modulo
256. -/
def densityAccum (width : Nat) (d : List Nat) (a : Ant) : List Nat :=
  match a.position with
  | some p =>
      let idx := p.2 * width + p.1
      if idx < d.length then d.set idx ((d.getD idx 0 + 1) % 256) else d
  | none => d

/-- `AntsGameManager::compute_ant_density` — one pass over the ants,
accumulating per-cell counters over a zeroed `width * height` array. -/
def compute_ant_density (m : AntsGameManager) : List Nat :=
  m.ants.foldl (densityAccum m.grid.width)
    (List.replicate (m.grid.width * m.grid.height) 0)

/-- Active ants of a collection (spawned, position present). -/
def activeTotal (ants : List Ant) : Nat :=
  (ants.filter (fun a => a.position.isSome)).length

/-- Active EXPLORER ants of a collection. -/
def activeExplorers (ants : List Ant) : Nat :=
  (ants.filter (fun a => a.position.isSome && decide (a.ant_type = AntsType.EXPLORER))).length

/-- The spawn target type: EXPLORER while fewer than 3 explorers are active. -/
def targetType (ants : List Ant) : Option AntsType :=
  if activeExplorers ants < 3 then some .EXPLORER else none

/-- The candidate predicate of the primary spawn search: inactive, and of
the target type when one is set. -/
def spawnPred (target : Option AntsType) (a : Ant) : Bool :=
  a.position.isNone &&
    (match target with
     | none => true
     | some t => decide (a.ant_type = t))

/-- `AntsGameManager::manage_smart_spawn` — admission checks (global active
cap, nest-cell density below 10), then the primary search for an inactive ant
of the target type; the primary hit gets position, FINDING, charge 0 and
cooldown 2; when the explorer quota is unmet and no inactive explorer exists,
the fallback deploys any inactive ant, setting only position and mode. -/
def manage_smart_spawn (m : AntsGameManager) (ant_density : List Nat) (width : Nat) :
    AntsGameManager :=
  let max_active_ants := m.config.nest_capacity
  if activeTotal m.ants ≥ max_active_ants then m
  else
    match m.grid.get_nest_position with
    | none => m
    | some nest_pos =>
        let nest_idx := nest_pos.2 * width + nest_pos.1
        if ant_density.getD nest_idx 0 ≥ 10 then m
        else
          let target := targetType m.ants
          match m.ants.findIdx? (spawnPred target) with
          | some idx =>
              match m.ants[idx]? with
              | some a =>
                  let spawned := { a with position := some nest_pos, mode := AntsMode.FINDING,
                                          current_charge := 0, cooldown := 2 }
                  { m with ants := m.ants.set idx spawned }
              | none => m
          | none =>
              if target.isSome then
                match m.ants.findIdx? (fun a => a.position.isNone) with
                | some idx =>
                    match m.ants[idx]? with
                    | some a =>
                        let spawned := { a with position := some nest_pos,
                                                mode := AntsMode.FINDING }
                        { m with ants := m.ants.set idx spawned }
                    | none => m
                | none => m
              else m

/-- `AntsGameManager::choose_action` — the ε-greedy draw, with the two RNG
samples supplied by the oracle pair: explore when the uniform draw is below
epsilon (then one of the four movement actions uniformly), otherwise the
best action of the mode-appropriate map; paired with that action's raw
Q-value at the origin. -/
def choose_action (food nest : PheromoneMap) (grid : Grid) (params : QLearningParams)
    (x y : Nat) (mode : AntsMode) (rnd : Rat × Fin 4) : Action × Rat :=
  let map := match mode with
    | .FINDING => food
    | .RETURNING => nest
  if rnd.1 < params.epsilon then
    let action : Action :=
      match rnd.2.val with
      | 0 => .Up
      | 1 => .Down
      | 2 => .Left
      | _ => .Right
    (action, map.get_q x y action)
  else
    let best := map.get_best_action x y grid
    (best, map.get_q x y best)

/-- `AntsGameManager::calculate_reward`. -/
def calculate_reward (grid : Grid) (config : SimulationConfig)
    (is_lethal : Bool) (mode : AntsMode) (nx ny : Nat) : Rat :=
  if is_lethal then config.reward_death
  else
    match mode with
    | .FINDING => if grid.has_food nx ny then config.reward_food else config.reward_default
    | .RETURNING => if grid.is_nest nx ny then config.reward_nest else config.reward_default

/-- `AntsGameManager::handle_interactions` — resolve pickup (FINDING onto a
food source with positive amount) or deposit (RETURNING onto the nest) after
a move, returning the updated grid, ant and both maps. -/
def handle_interactions (grid : Grid) (ant : Ant) (nx ny : Nat)
    (phero_food phero_nest : PheromoneMap) (config : SimulationConfig) :
    Grid × Ant × PheromoneMap × PheromoneMap :=
  let immediate_boost := config.reward_food * (1 / 2)
  match ant.mode with
  | .FINDING =>
      if grid.has_food nx ny then
        match grid.get_tile (nx, ny) with
        | some tile =>
            match tile.tile_type with
            | .FoodSource amount =>
                if amount > 0 then
                  (grid.set_tile (nx, ny) { tile with tile_type := .FoodSource (amount - 1) },
                   { ant with current_charge := ant.maximal_charge, mode := .RETURNING },
                   phero_food.queue_update nx ny .Stay immediate_boost,
                   phero_nest)
                else (grid, ant, phero_food, phero_nest)
            | _ => (grid, ant, phero_food, phero_nest)
        | none => (grid, ant, phero_food, phero_nest)
      else (grid, ant, phero_food, phero_nest)
  | .RETURNING =>
      if grid.is_nest nx ny then
        (grid.add_food_to_nest ant.current_charge,
         { ant with current_charge := 0, mode := .FINDING },
         phero_food,
         phero_nest.queue_update nx ny .Stay immediate_boost)
      else (grid, ant, phero_food, phero_nest)

/-- `AntsGameManager::is_game_finished` — all ants unpositioned, or no food
remaining anywhere. -/
def is_game_finished (m : AntsGameManager) : Bool :=
  m.ants.all (fun ant => ant.position.isNone) || !m.grid.is_food_remaining

/-- Saturating decrement of a flat density counter (`saturating_sub(1)`
guarded by the length check of the source). -/
def densityDec (d : List Nat) (idx : Nat) : List Nat :=
  if idx < d.length then d.set idx (d.getD idx 0 - 1) else d

/-- Unchecked `u8` increment of a flat density counter (`+= 1` guarded by the
length check of the source), modelled as wrapping modulo 256. -/
def densityInc (d : List Nat) (idx : Nat) : List Nat :=
  if idx < d.length then d.set idx ((d.getD idx 0 + 1) % 256) else d

/-- The mutable state threaded through the per-ant loop of `game_step`:
the ant collection, the live grid, both pheromone maps, the within-tick
density scratch array, and the number of RNG pairs consumed so far. -/
structure StepState where
  ants : List Ant
  grid : Grid
  pheromones_food : PheromoneMap
  pheromones_nest : PheromoneMap
  density : List Nat
  rix : Nat
deriving Repr

/-- One iteration of the per-ant loop of `game_step` for the ant at index
`i`: skip unspawned ants; decrement and skip cooling ants; otherwise reset
the cooldown, choose an action (consuming one oracle pair), judge legality
(bounds, walkability, provisional density below 10, visible lethality),
queue the Bellman delta at the origin on the mode-appropriate map, and
execute the move — death on a lethal cell, else relocation with density
bookkeeping and the pickup/deposit interaction. -/
def ant_step (params : QLearningParams) (config : SimulationConfig)
    (width height : Nat) (oracle : Nat → Rat × Fin 4)
    (st : StepState) (i : Nat) : StepState :=
  match st.ants[i]? with
  | none => st
  | some ant =>
    match ant.position with
    | none => st
    | some pos =>
      if ant.cooldown > 0 then
        { st with ants := st.ants.set i { ant with cooldown := ant.cooldown - 1 } }
      else
        let ant := { ant with cooldown := ant.seconds_for_movement }
        let x := pos.1
        let y := pos.2
        let mode := ant.mode
        let scope := ant.scope
        let cq := choose_action st.pheromones_food st.pheromones_nest st.grid params
          x y mode (oracle st.rix)
        let chosen_action := cq.1
        let q_curr := cq.2
        let target := ant.get_target_position chosen_action
        let nx := target.1
        let ny := target.2
        let is_out : Bool := decide (nx ≥ width) || decide (ny ≥ height)
        let is_lethal : Bool := !is_out && st.grid.is_lethal nx ny
        let move_allowed : Bool :=
          (!is_out && st.grid.is_walkable nx ny)
            && !(!is_out && decide (st.density.getD (ny * width + nx) 0 ≥ 10))
            && !(is_lethal && decide (scope > 0))
        let reward := calculate_reward st.grid config is_lethal mode nx ny
        let map := match mode with
          | .FINDING => st.pheromones_food
          | .RETURNING => st.pheromones_nest
        let max_next_q := if is_out || is_lethal then 0 else map.get_max_q nx ny
        let delta := params.alpha * (reward + params.gamma * max_next_q - q_curr)
        let pf := match mode with
          | .FINDING => st.pheromones_food.queue_update x y chosen_action delta
          | .RETURNING => st.pheromones_food
        let pn := match mode with
          | .FINDING => st.pheromones_nest
          | .RETURNING => st.pheromones_nest.queue_update x y chosen_action delta
        if move_allowed then
          if is_lethal then
            { st with
              ants := st.ants.set i { ant with position := none }
              pheromones_food := pf
              pheromones_nest := pn
              density := densityDec st.density (y * width + x)
              rix := st.rix + 1 }
          else
            let d := densityInc (densityDec st.density (y * width + x)) (ny * width + nx)
            let moved := ant.move_to nx ny
            let hi := handle_interactions st.grid moved nx ny pf pn config
            { ants := st.ants.set i hi.2.1
              grid := hi.1
              pheromones_food := hi.2.2.1
              pheromones_nest := hi.2.2.2
              density := d
              rix := st.rix + 1 }
        else
          { st with
            ants := st.ants.set i ant
            pheromones_food := pf
            pheromones_nest := pn
            rix := st.rix + 1 }

/-- `AntsGameManager::game_step` — sync the learning parameters from the
configuration, compute the provisional density, run spawn admission, iterate
the per-ant loop in collection order, apply both maps' pending updates and
evaporation, and commit a snapshot (truncating any alternative future). -/
def game_step (m : AntsGameManager) (oracle : Nat → Rat × Fin 4) : AntsGameManager :=
  let m := { m with rl_params :=
    { alpha := m.config.alpha, gamma := m.config.gamma, epsilon := m.config.epsilon } }
  let width := m.grid.width
  let height := m.grid.height
  let ant_density := compute_ant_density m
  let m := manage_smart_spawn m ant_density width
  let st0 : StepState :=
    { ants := m.ants
      grid := m.grid
      pheromones_food := m.pheromones_food
      pheromones_nest := m.pheromones_nest
      density := ant_density
      rix := 0 }
  let stN := (List.range m.ants.length).foldl
    (ant_step m.rl_params m.config width height oracle) st0
  save_snapshot
    { m with
      grid := stN.grid
      ants := stN.ants
      pheromones_food := stN.pheromones_food.apply_tick m.config.pheromone_evaporation
      pheromones_nest := stN.pheromones_nest.apply_tick m.config.pheromone_evaporation }

end AntsGameManager

/-- Number of ants of a collection positioned on the cell `c`. -/
def cellCount (ants : List Ant) (c : Nat × Nat) : Nat :=
  ants.countP (fun a => decide (a.position = some c))

/-- Flat row-major index of a cell. -/
def flatIdx (width : Nat) (c : Nat × Nat) : Nat :=
  c.2 * width + c.1

/-- The ant is unspawned or positioned inside a `width × height` grid. -/
def antInBounds (width height : Nat) (a : Ant) : Bool :=
  match a.position with
  | some p => decide (p.1 < width ∧ p.2 < height)
  | none => true

/-- The predicate counted by `compute_ant_density` at flat index `i`:
a positioned ant whose flat row-major index is `i`. -/
def inCell (width i : Nat) (a : Ant) : Bool :=
  match a.position with
  | some p => decide (flatIdx width p = i)
  | none => false

/-- Every tile of the grid carries an in-bounds position (true of every grid
built by the constructors, which drop out-of-bounds tiles). -/
def Grid.wfTiles (g : Grid) : Prop :=
  ∀ t ∈ g.tiles, t.position.1 < g.width ∧ t.position.2 < g.height

instance (g : Grid) : Decidable g.wfTiles := by
  unfold Grid.wfTiles
  infer_instance

/-- Invariant threaded through the per-ant loop of `game_step`, with `e`
accounting for the one ant the spawn admission may have placed at the nest
without updating the density array: the density array has one slot per cell
with every counter at most 10, every positioned ant is on-grid, and each
cell's true occupancy is bounded by its density counter plus its `e`
allowance. -/
def StepInv (w h : Nat) (e : Nat × Nat → Nat) (st : AntsGameManager.StepState) : Prop :=
  st.density.length = w * h ∧
  (∀ v ∈ st.density, v ≤ 10) ∧
  (∀ a ∈ st.ants, antInBounds w h a = true) ∧
  (∀ c : Nat × Nat, c.1 < w → c.2 < h →
    cellCount st.ants c ≤ st.density.getD (flatIdx w c) 0 + e c)

/-- Sum of the pending deltas accumulated under one `(x, y, action)` key. -/
def pendingTotal (pending : List ((Nat × Nat × Nat) × Rat)) (x y a : Nat) : Rat :=
  ((pending.filter (fun e => decide (e.1 = (x, y, a)))).map (fun e => e.2)).sum

/-- Shape of a value table: `W` columns of `H` cells of 5 slots. -/
def dataShape (W H : Nat) (d : List (List (List Rat))) : Prop :=
  d.length = W ∧ ∀ col ∈ d, col.length = H ∧ ∀ cell ∈ col, cell.length = 5

/-- Shape invariant of a pheromone map: the value table is `width` columns of
`height` cells of 5 slots, and every pending key is in bounds (maps built by
`new` and updated through the manager satisfy it; an out-of-bounds pending
key would make the source's `apply_tick` panic). -/
def PheromoneMap.wfShape (m : PheromoneMap) : Prop :=
  dataShape m.width m.height m.data ∧
  (∀ e ∈ m.pending_updates, e.1.1 < m.width ∧ e.1.2.1 < m.height ∧ e.1.2.2 < 5)

instance (m : PheromoneMap) : Decidable m.wfShape := by
  unfold PheromoneMap.wfShape dataShape
  infer_instance

/-! Concrete instances used by counterexamples and witnesses. -/

/-- A configuration with greedy action choice (epsilon 0). -/
def exampleConfig : SimulationConfig :=
  { alpha := 1/10, gamma := 9/10, epsilon := 0,
    reward_food := 1000, reward_nest := 1000, reward_death := -1000,
    reward_default := -1, nest_capacity := 20, pheromone_evaporation := 1/100 }

/-- A nest tile at the origin. -/
def exampleNest : Tile := Tile.new 0 0 (.Nest 0 5 5 5) none

/-- An oracle that never explores (its draw 1 is not below any epsilon in
`[0,1]`). -/
def oracleOne : Nat → Rat × Fin 4 := fun _ => (1, 0)

/-- An ant of the given type with a chosen position and cooldown. -/
def mkAnt (t : AntsType) (pos : Option (Nat × Nat)) (cd : Nat) : Ant :=
  { Ant.new t with position := pos, cooldown := cd }

/-- C1 scenario: a 1×2 grid with the nest at `(0,0)`, nine pickers resting on
the nest, one picker at `(0,1)` ready to move, and one unspawned explorer;
every cell holds at most 10 ants before the tick. -/
def densityMgr : AntsGameManager :=
  AntsGameManager.new 1 2 [exampleNest]
    ((List.replicate 9 (mkAnt .PICKER (some (0, 0)) 5)) ++
      [mkAnt .PICKER (some (0, 1)) 0, mkAnt .EXPLORER none 0])
    exampleConfig

/-- C2 scenario: one unspawned picker carrying charge 7 and cooldown 5; the
explorer quota is unmet and no inactive explorer exists, so the fallback
admission path fires. -/
def fallbackMgr : AntsGameManager :=
  AntsGameManager.new 1 1 [exampleNest]
    [{ Ant.new .PICKER with current_charge := 7, cooldown := 5 }]
    exampleConfig

/-- C9 scenario: 256 ants stacked on the single cell of a 1×1 grid. -/
def wrapMgr : AntsGameManager :=
  AntsGameManager.new 1 1 []
    (List.replicate 256 (mkAnt .PICKER (some (0, 0)) 5))
    exampleConfig

/-- A manager with no ants, used to instantiate hypotheses-bearing theorems. -/
def emptyMgr : AntsGameManager :=
  AntsGameManager.new 1 1 [exampleNest] [] exampleConfig

/-- A manager with one unspawned explorer, exercising the primary spawn
admission path. -/
def mainSpawnMgr : AntsGameManager :=
  AntsGameManager.new 1 1 [exampleNest] [mkAnt .EXPLORER none 0] exampleConfig

/-- A manager that has committed one tick beyond construction (history
length 2), for the history round-trip and branch-truncation witnesses. -/
def steppedMgr : AntsGameManager :=
  emptyMgr.game_step oracleOne

/-- A 3×3 all-default grid. -/
def exampleGrid3 : Grid := Grid.new 3 3

/-- A fresh 3×3 pheromone map (all Q-values 0). -/
def exampleMap3 : PheromoneMap := PheromoneMap.new 3 3

/-- A pheromone map with one pending update queued, for the apply-tick
witness. -/
def examplePending : PheromoneMap :=
  (PheromoneMap.new 1 1).queue_update 0 0 .Stay 5

/-- A 2×2 grid with a food source of amount 3 at `(1,0)` and the nest at
`(0,0)`, for the interaction witness. -/
def interactGrid : Grid :=
  Grid.new_with_tiles 2 2 [exampleNest, Tile.new 1 0 (.FoodSource 3) none]

/-! Helper lemmas. -/

namespace AntsGameManager

theorem save_snapshot_fields (m : AntsGameManager) :
    m.save_snapshot.history =
      (if m.current_tick_index < m.history.length - 1 then
        m.history.take (m.current_tick_index + 1)
      else m.history) ++ [m.live_snapshot] ∧
    m.save_snapshot.current_tick_index = m.save_snapshot.history.length - 1 ∧
    m.save_snapshot.grid = m.grid ∧ m.save_snapshot.ants = m.ants ∧
    m.save_snapshot.pheromones_food = m.pheromones_food ∧
    m.save_snapshot.pheromones_nest = m.pheromones_nest ∧
    m.save_snapshot.live_snapshot = m.live_snapshot := by
  refine ⟨rfl, rfl, rfl, rfl, rfl, rfl, rfl⟩

theorem save_snapshot_last (m : AntsGameManager) :
    m.save_snapshot.history[m.save_snapshot.current_tick_index]? =
      some m.save_snapshot.live_snapshot := by
  unfold save_snapshot
  simp [live_snapshot, List.getElem?_concat_length]

theorem manage_smart_spawn_preserves (m : AntsGameManager) (d : List Nat) (w : Nat) :
    (m.manage_smart_spawn d w).history = m.history ∧
    (m.manage_smart_spawn d w).current_tick_index = m.current_tick_index ∧
    (m.manage_smart_spawn d w).grid = m.grid ∧
    (m.manage_smart_spawn d w).config = m.config ∧
    (m.manage_smart_spawn d w).pheromones_food = m.pheromones_food ∧
    (m.manage_smart_spawn d w).pheromones_nest = m.pheromones_nest := by
  unfold manage_smart_spawn
  refine ⟨?_, ?_, ?_, ?_, ?_, ?_⟩ <;> (repeat' (first | split | rfl | simp only []))

theorem game_step_eq_save (m : AntsGameManager) (oracle : Nat → Rat × Fin 4) :
    ∃ M : AntsGameManager, m.game_step oracle = M.save_snapshot ∧
      M.history = m.history ∧ M.current_tick_index = m.current_tick_index := by
  refine ⟨_, rfl, ?_, ?_⟩
  · exact (manage_smart_spawn_preserves _ _ _).1
  · exact (manage_smart_spawn_preserves _ _ _).2.1

end AntsGameManager

theorem is_food_remaining_iff (g : Grid) :
    g.is_food_remaining = true ↔
      ∃ t ∈ g.tiles, ∃ amount, t.tile_type = TileType.FoodSource amount ∧ 0 < amount := by
  unfold Grid.is_food_remaining
  rw [List.any_eq_true]
  constructor
  · rintro ⟨t, ht, hp⟩
    refine ⟨t, ht, ?_⟩
    cases h : t.tile_type <;> rw [h] at hp <;> simp_all
  · rintro ⟨t, ht, amount, hty, hpos⟩
    exact ⟨t, ht, by simp [hty, hpos]⟩

/-! Claim theorems. -/

/-- C8: `is_game_finished()` returns true iff every ant's position is absent,
or no FoodSource tile anywhere on the grid has a positive amount. -/
theorem is_game_finished_iff (m : AntsGameManager) :
    m.is_game_finished = true ↔
      ((∀ a ∈ m.ants, a.position = none) ∨
        (∀ t ∈ m.grid.tiles, ∀ amount,
          t.tile_type = TileType.FoodSource amount → amount = 0)) := by
  unfold AntsGameManager.is_game_finished
  rw [Bool.or_eq_true, List.all_eq_true, Bool.not_eq_true']
  apply or_congr
  · constructor
    · intro h a ha
      simpa using h a ha
    · intro h a ha
      simp [h a ha]
  · rw [← Bool.not_eq_true, is_food_remaining_iff]
    push_neg
    constructor
    · intro h t ht amount hty
      have := h t ht amount hty
      omega
    · intro h t ht amount hty
      have := h t ht amount hty
      omega

/-- C3: for `k` inside the history, `restore_snapshot(k)` replaces the live
grid, ants and both pheromone maps with exactly the recorded snapshot and
sets the current index to `k`; for `k` at or beyond the history length it
leaves the manager unchanged; and the snapshot recorded at the index
committed by a `game_step` is exactly that step's resulting live state. -/
theorem restore_snapshot_roundtrip (m : AntsGameManager) (k : Nat) :
    (∀ s, m.history[k]? = some s →
        m.restore_snapshot k =
          { m with grid := s.grid, ants := s.ants,
                   pheromones_food := s.pheromones_food,
                   pheromones_nest := s.pheromones_nest,
                   current_tick_index := k }) ∧
    (m.history.length ≤ k → m.restore_snapshot k = m) ∧
    (∀ oracle, (m.game_step oracle).history[(m.game_step oracle).current_tick_index]?
        = some (m.game_step oracle).live_snapshot) := by
  refine ⟨?_, ?_, ?_⟩
  · intro s h
    unfold AntsGameManager.restore_snapshot
    rw [h]
  · intro h
    unfold AntsGameManager.restore_snapshot
    rw [List.getElem?_eq_none h]
  · intro oracle
    obtain ⟨M, hM, -, -⟩ := AntsGameManager.game_step_eq_save m oracle
    rw [hM]
    exact AntsGameManager.save_snapshot_last M

/-- C3 witness: instantiated on a manager with a two-snapshot history. -/
theorem restore_snapshot_roundtrip_witness :
    steppedMgr.restore_snapshot 0 =
      { steppedMgr with grid := emptyMgr.grid, ants := emptyMgr.ants,
                        pheromones_food := emptyMgr.pheromones_food,
                        pheromones_nest := emptyMgr.pheromones_nest,
                        current_tick_index := 0 } ∧
    steppedMgr.restore_snapshot 5 = steppedMgr := by
  constructor
  · exact (restore_snapshot_roundtrip steppedMgr 0).1
      ⟨emptyMgr.grid, emptyMgr.ants, emptyMgr.pheromones_food, emptyMgr.pheromones_nest⟩
      (by decide)
  · exact (restore_snapshot_roundtrip steppedMgr 5).2.1 (by decide)

/-- C4: restoring to an interior index `k` and stepping once discards every
snapshot after index `k`, appends the new snapshot at index `k + 1`
(leaving the first `k + 1` snapshots unchanged) and points the current index
at it. -/
theorem restore_then_step_truncates (m : AntsGameManager)
    (oracle : Nat → Rat × Fin 4) (k : Nat) (hk : k + 1 < m.history.length) :
    ((m.restore_snapshot k).game_step oracle).history.length = k + 2 ∧
    ((m.restore_snapshot k).game_step oracle).history.take (k + 1) =
      m.history.take (k + 1) ∧
    ((m.restore_snapshot k).game_step oracle).current_tick_index = k + 1 ∧
    ((m.restore_snapshot k).game_step oracle).history[k + 1]? =
      some ((m.restore_snapshot k).game_step oracle).live_snapshot := by
  have hk' : k < m.history.length := by omega
  obtain ⟨s, hs⟩ : ∃ s, m.history[k]? = some s :=
    ⟨m.history[k], (List.getElem?_eq_some_iff).mpr ⟨hk', rfl⟩⟩
  have hrestore : m.restore_snapshot k =
      { m with grid := s.grid, ants := s.ants,
               pheromones_food := s.pheromones_food,
               pheromones_nest := s.pheromones_nest,
               current_tick_index := k } := by
    unfold AntsGameManager.restore_snapshot
    rw [hs]
  obtain ⟨M, hM, hist, idx⟩ :=
    AntsGameManager.game_step_eq_save (m.restore_snapshot k) oracle
  rw [hrestore] at hist idx
  have hist' : M.history = m.history := hist
  have idx' : M.current_tick_index = k := idx
  have hsv := AntsGameManager.save_snapshot_fields M
  have hcond : M.current_tick_index < M.history.length - 1 := by
    rw [hist', idx']
    omega
  have hhist2 : M.save_snapshot.history = m.history.take (k + 1) ++ [M.live_snapshot] := by
    rw [hsv.1, if_pos hcond, hist', idx']
  have hlen : (m.history.take (k + 1)).length = k + 1 := by
    rw [List.length_take]
    omega
  rw [hM]
  refine ⟨?_, ?_, ?_, ?_⟩
  · rw [hhist2]
    simp [hlen]
  · rw [hhist2, List.take_append_of_le_length (by omega), List.take_take]
    simp
  · rw [hsv.2.1, hhist2]
    simp [hlen]
  · have : M.save_snapshot.history[(m.history.take (k + 1)).length]? =
        some M.live_snapshot := by
      rw [hhist2]
      exact List.getElem?_concat_length _ _
    rw [hlen] at this
    rw [this]
    rfl

/-- C4 witness: a manager with history length 2 restored to index 0 and
stepped once. -/
theorem restore_then_step_truncates_witness :
    ((steppedMgr.restore_snapshot 0).game_step oracleOne).history.length = 2 ∧
    ((steppedMgr.restore_snapshot 0).game_step oracleOne).current_tick_index = 1 := by
  have h := restore_then_step_truncates steppedMgr oracleOne 0 (by decide)
  exact ⟨h.1, h.2.2.1⟩

/-- C2 counterexample: under the fallback admission path (explorer quota
unmet, no inactive explorer, one inactive picker carrying charge 7 and
cooldown 5), the spawned ant keeps charge 7 and cooldown 5 instead of the
claimed charge 0 and cooldown 2. -/
theorem spawn_fallback_counterexample :
    (fallbackMgr.manage_smart_spawn fallbackMgr.compute_ant_density 1).ants =
      [{ ant_type := .PICKER, maximal_charge := 100, current_charge := 7,
         seconds_for_movement := 10, cooldown := 5, scope := 0,
         mode := .FINDING, position := some (0, 0) }] ∧
    ((fallbackMgr.manage_smart_spawn fallbackMgr.compute_ant_density 1).ants.headD
        (Ant.new .PICKER)).cooldown ≠ 2 ∧
    ((fallbackMgr.manage_smart_spawn fallbackMgr.compute_ant_density 1).ants.headD
        (Ant.new .PICKER)).current_charge ≠ 0 := by
  decide

/-- C2 (amended): when the admission checks pass, the primary spawn path
(an inactive ant matching the target type) sets position to the nest, mode
FINDING, charge 0 and cooldown 2; the fallback path (explorer quota unmet
but no inactive explorer available) sets only position and mode, keeping the
ant's previous charge and cooldown. -/
theorem manage_smart_spawn_paths (m : AntsGameManager) (d : List Nat) (w : Nat)
    (np : Nat × Nat) (j : Nat) (a : Ant)
    (hcap : AntsGameManager.activeTotal m.ants < m.config.nest_capacity)
    (hnp : m.grid.get_nest_position = some np)
    (hdens : d.getD (np.2 * w + np.1) 0 < 10)
    (ha : m.ants[j]? = some a) :
    (m.ants.findIdx?
        (AntsGameManager.spawnPred (AntsGameManager.targetType m.ants)) = some j →
      (m.manage_smart_spawn d w).ants =
        m.ants.set j { a with position := some np, mode := .FINDING,
                              current_charge := 0, cooldown := 2 }) ∧
    (AntsGameManager.targetType m.ants = some .EXPLORER →
      m.ants.findIdx?
        (AntsGameManager.spawnPred (AntsGameManager.targetType m.ants)) = none →
      m.ants.findIdx? (fun a => a.position.isNone) = some j →
      (m.manage_smart_spawn d w).ants =
        m.ants.set j { a with position := some np, mode := .FINDING }) := by
  unfold AntsGameManager.manage_smart_spawn
  constructor
  · intro hfind
    simp only [hnp, hfind, ha, if_neg (show ¬AntsGameManager.activeTotal m.ants ≥
        m.config.nest_capacity by omega),
      if_neg (show ¬d.getD (np.2 * w + np.1) 0 ≥ 10 by omega)]
  · intro htgt hnone hfall
    rw [htgt] at hnone
    simp only [hnp, htgt, hnone, hfall, ha, Option.isSome_some, if_true,
      if_neg (show ¬AntsGameManager.activeTotal m.ants ≥
        m.config.nest_capacity by omega),
      if_neg (show ¬d.getD (np.2 * w + np.1) 0 ≥ 10 by omega)]

/-- C2 (amended) witness: the primary path on a single unspawned explorer
yields position at the nest, FINDING, charge 0, cooldown 2. -/
theorem manage_smart_spawn_paths_witness :
    (mainSpawnMgr.manage_smart_spawn (mainSpawnMgr.compute_ant_density) 1).ants =
      [{ ant_type := .EXPLORER, maximal_charge := 10, current_charge := 0,
         seconds_for_movement := 5, cooldown := 2, scope := 1,
         mode := .FINDING, position := some (0, 0) }] := by
  have h := (manage_smart_spawn_paths mainSpawnMgr
      (mainSpawnMgr.compute_ant_density) 1 (0, 0) 0 (mkAnt .EXPLORER none 0)
      (by decide) (by decide) (by decide) (by decide)).1 (by decide)
  rw [h]
  decide

theorem densityAccum_foldl_getElem? (w : Nat) (ants : List Ant) (acc : List Nat)
    (i k : Nat) (hacc : acc[i]? = some (k % 256)) :
    (ants.foldl (AntsGameManager.densityAccum w) acc)[i]? =
      some ((k + ants.countP (inCell w i)) % 256) := by
  induction ants generalizing acc k with
  | nil => simpa using hacc
  | cons a ants ih =>
    rw [List.foldl_cons]
    have hilen : i < acc.length := (List.getElem?_eq_some_iff.mp hacc).1
    cases hpos : a.position with
    | none =>
        have hstep : AntsGameManager.densityAccum w acc a = acc := by
          simp only [AntsGameManager.densityAccum, hpos]
        have hcell : ¬inCell w i a = true := by
          simp [inCell, hpos]
        rw [hstep, List.countP_cons_of_neg _ _ hcell]
        exact ih acc k hacc
    | some p =>
        by_cases hfi : flatIdx w p = i
        · have hcell : inCell w i a = true := by
            simp [inCell, hpos, hfi]
          have hstep : AntsGameManager.densityAccum w acc a =
              acc.set i ((acc.getD i 0 + 1) % 256) := by
            simp only [AntsGameManager.densityAccum, hpos]
            simp only [flatIdx] at hfi
            rw [hfi, if_pos hilen]
          have hget : acc.getD i 0 = k % 256 := by
            rw [List.getD_eq_getElem?_getD, hacc]
            rfl
          have hnew : (acc.set i ((acc.getD i 0 + 1) % 256))[i]? =
              some ((k + 1) % 256) := by
            rw [List.getElem?_set_eq_of_lt _ hilen, hget]
            congr 1
            omega
          rw [hstep, List.countP_cons_of_pos _ _ hcell, ih _ (k + 1) hnew]
          congr 1
          omega
        · have hcell : ¬inCell w i a = true := by
            simp [inCell, hpos, hfi]
          have hstep : (AntsGameManager.densityAccum w acc a)[i]? = some (k % 256) := by
            simp only [AntsGameManager.densityAccum, hpos]
            simp only [flatIdx] at hfi
            split
            · rw [List.getElem?_set_ne hfi, hacc]
            · exact hacc
          rw [List.countP_cons_of_neg _ _ hcell]
          exact ih _ k hstep

theorem compute_ant_density_getElem? (m : AntsGameManager) (i : Nat)
    (hi : i < m.grid.width * m.grid.height) :
    (m.compute_ant_density)[i]? =
      some ((m.ants.countP (inCell m.grid.width i)) % 256) := by
  unfold AntsGameManager.compute_ant_density
  have h0 : (List.replicate (m.grid.width * m.grid.height) (0 : Nat))[i]? =
      some (0 % 256) := by
    simp [List.getElem?_replicate, hi]
  simpa using densityAccum_foldl_getElem? m.grid.width m.ants _ i 0 h0

set_option maxRecDepth 4096 in
/-- C9 counterexample: with 256 ants stacked on the single cell of a 1×1
grid, `compute_ant_density` wraps the `u8` counter around to 0 instead of
saturating at the maximum representable value 255. -/
theorem density_wrap_counterexample :
    wrapMgr.ants.length = 256 ∧
    wrapMgr.compute_ant_density = [0] ∧
    wrapMgr.compute_ant_density ≠ [255] := by
  refine ⟨by decide, ?_, ?_⟩ <;> decide

/-- C9 (amended): the per-cell density counter computed at the start of
`game_step` counts the positioned ants of each cell modulo 256 (the
unchecked `u8` increment wraps, a panic in debug builds, instead of
saturating), while the within-tick decrement saturates at zero and the
within-tick increment likewise wraps modulo 256. -/
theorem density_counters_spec (m : AntsGameManager) (i : Nat) (d : List Nat)
    (idx v : Nat) (hi : i < m.grid.width * m.grid.height) (hd : d[idx]? = some v) :
    (m.compute_ant_density)[i]? =
      some ((m.ants.countP (inCell m.grid.width i)) % 256) ∧
    (AntsGameManager.densityDec d idx)[idx]? = some (v - 1) ∧
    (AntsGameManager.densityInc d idx)[idx]? = some ((v + 1) % 256) := by
  have hlen : idx < d.length := (List.getElem?_eq_some_iff.mp hd).1
  have hget : d.getD idx 0 = v := by
    rw [List.getD_eq_getElem?_getD, hd]
    rfl
  refine ⟨compute_ant_density_getElem? m i hi, ?_, ?_⟩
  · unfold AntsGameManager.densityDec
    rw [if_pos hlen, List.getElem?_set_eq_of_lt _ hlen, hget]
  · unfold AntsGameManager.densityInc
    rw [if_pos hlen, List.getElem?_set_eq_of_lt _ hlen, hget]

theorem bestStep_cases (m : PheromoneMap) (g : Grid) (x y : Nat)
    (st : Action × Option Rat) (action : Action) :
    PheromoneMap.bestStep m g x y st action = st ∨
      (PheromoneMap.bestStep m g x y st action = (action, some (m.get_q x y action)) ∧
        PheromoneMap.action_legal m g x y action = true) := by
  obtain ⟨sa, sv⟩ := st
  unfold PheromoneMap.bestStep
  by_cases h : PheromoneMap.action_legal m g x y action = true
  · rw [if_pos h]
    cases sv with
    | none => exact Or.inr ⟨rfl, h⟩
    | some mv =>
        by_cases hv : m.get_q x y action > mv
        · exact Or.inr ⟨by simp [hv], h⟩
        · exact Or.inl (by simp [hv])
  · rw [if_neg h]
    exact Or.inl rfl

theorem bestStep_snd_ne_none (m : PheromoneMap) (g : Grid) (x y : Nat)
    (st : Action × Option Rat) (action : Action)
    (h : st.2 ≠ none ∨ PheromoneMap.action_legal m g x y action = true) :
    (PheromoneMap.bestStep m g x y st action).2 ≠ none := by
  obtain ⟨sa, sv⟩ := st
  unfold PheromoneMap.bestStep
  rcases h with h | h
  · cases sv with
    | none => simp at h
    | some mv =>
        by_cases hleg : PheromoneMap.action_legal m g x y action = true
        · rw [if_pos hleg]
          dsimp only
          split <;> simp
        · rw [if_neg hleg]
          simp
  · rw [if_pos h]
    cases sv with
    | none => simp
    | some mv =>
        dsimp only
        split <;> simp

theorem foldl_bestStep_none_iff (m : PheromoneMap) (g : Grid) (x y : Nat)
    (l : List Action) (st : Action × Option Rat) :
    (l.foldl (PheromoneMap.bestStep m g x y) st).2 = none ↔
      st.2 = none ∧ ∀ a ∈ l, PheromoneMap.action_legal m g x y a = false := by
  induction l generalizing st with
  | nil => simp
  | cons a l ih =>
    rw [List.foldl_cons, ih]
    by_cases h : PheromoneMap.action_legal m g x y a = true
    · constructor
      · rintro ⟨h1, -⟩
        exact absurd h1 (bestStep_snd_ne_none m g x y st a (Or.inr h))
      · rintro ⟨-, hall⟩
        have := hall a (List.mem_cons_self a l)
        rw [h] at this
        cases this
    · have hb : PheromoneMap.bestStep m g x y st a = st := by
        unfold PheromoneMap.bestStep
        rw [if_neg h]
      rw [hb]
      constructor
      · rintro ⟨h1, h2⟩
        refine ⟨h1, fun b hb2 => ?_⟩
        rcases List.mem_cons.mp hb2 with rfl | hmem
        · exact Bool.not_eq_true _ ▸ (Bool.eq_false_iff.mpr (fun hc => h hc))
        · exact h2 b hmem
      · rintro ⟨h1, h2⟩
        exact ⟨h1, fun b hb2 => h2 b (List.mem_cons_of_mem a hb2)⟩

theorem foldl_bestStep_inv (m : PheromoneMap) (g : Grid) (x y : Nat)
    (L : List Action) (l : List Action) (st : Action × Option Rat)
    (hl : ∀ a ∈ l, a ∈ L)
    (hst : st.2 ≠ none →
      PheromoneMap.action_legal m g x y st.1 = true ∧ st.1 ∈ L) :
    (l.foldl (PheromoneMap.bestStep m g x y) st).2 ≠ none →
      PheromoneMap.action_legal m g x y
          (l.foldl (PheromoneMap.bestStep m g x y) st).1 = true ∧
        (l.foldl (PheromoneMap.bestStep m g x y) st).1 ∈ L := by
  induction l generalizing st with
  | nil => exact hst
  | cons a l ih =>
    rw [List.foldl_cons]
    apply ih _ (fun b hb => hl b (List.mem_cons_of_mem a hb))
    intro h2
    rcases bestStep_cases m g x y st a with hcase | ⟨hcase, hleg⟩ <;>
      rw [hcase] at h2 ⊢
    · exact hst h2
    · exact ⟨hleg, hl a (List.mem_cons_self a l)⟩

theorem get_best_action_of_none (m : PheromoneMap) (g : Grid) (x y : Nat)
    (hf : (PheromoneMap.moving_actions.foldl
      (PheromoneMap.bestStep m g x y) (Action.Stay, none)).2 = none) :
    m.get_best_action x y g = .Stay := by
  show (match (PheromoneMap.moving_actions.foldl
      (PheromoneMap.bestStep m g x y) (Action.Stay, none)).2 with
    | none => Action.Stay
    | some _ => (PheromoneMap.moving_actions.foldl
        (PheromoneMap.bestStep m g x y) (Action.Stay, none)).1) = Action.Stay
  rw [hf]

theorem get_best_action_of_some (m : PheromoneMap) (g : Grid) (x y : Nat) (v : Rat)
    (hf : (PheromoneMap.moving_actions.foldl
      (PheromoneMap.bestStep m g x y) (Action.Stay, none)).2 = some v) :
    m.get_best_action x y g = (PheromoneMap.moving_actions.foldl
      (PheromoneMap.bestStep m g x y) (Action.Stay, none)).1 := by
  show (match (PheromoneMap.moving_actions.foldl
      (PheromoneMap.bestStep m g x y) (Action.Stay, none)).2 with
    | none => Action.Stay
    | some _ => (PheromoneMap.moving_actions.foldl
        (PheromoneMap.bestStep m g x y) (Action.Stay, none)).1) = _
  rw [hf]

theorem get_best_action_ne_stay_of_legal (m : PheromoneMap) (g : Grid) (x y : Nat)
    (a : Action) (ha : a ∈ PheromoneMap.moving_actions)
    (hleg : PheromoneMap.action_legal m g x y a = true) :
    m.get_best_action x y g ≠ .Stay ∧
      m.get_best_action x y g ∈ PheromoneMap.moving_actions ∧
      PheromoneMap.action_legal m g x y (m.get_best_action x y g) = true := by
  cases hf : (PheromoneMap.moving_actions.foldl
      (PheromoneMap.bestStep m g x y) (Action.Stay, none)).2 with
  | none =>
      have := (foldl_bestStep_none_iff m g x y PheromoneMap.moving_actions
        (Action.Stay, none)).mp hf
      have hfalse := this.2 a ha
      rw [hleg] at hfalse
      cases hfalse
  | some v =>
      have hinv := foldl_bestStep_inv m g x y PheromoneMap.moving_actions
        PheromoneMap.moving_actions (Action.Stay, none)
        (fun b hb => hb) (fun h => absurd rfl h) (by rw [hf]; exact fun h => by cases h)
      rw [get_best_action_of_some m g x y v hf]
      refine ⟨?_, hinv.2, hinv.1⟩
      intro hstay
      rw [hstay] at hinv
      have : (Action.Stay : Action) ∈ PheromoneMap.moving_actions := hinv.2
      simp [PheromoneMap.moving_actions] at this

/-- C5: `get_best_action` considers only the four movement actions Up, Down,
Left, Right; any candidate it returns has a legal (on-map, walkable)
destination; it returns Stay exactly when every movement action is illegal
(in particular for an interior agent whose four neighbouring cells are all
non-walkable); and with all four candidates legal at equal Q-values the
strict comparison in fixed order returns Up. -/
theorem get_best_action_spec (m : PheromoneMap) (g : Grid) (x y : Nat) :
    (m.get_best_action x y g = .Stay ↔
      ∀ a ∈ PheromoneMap.moving_actions, PheromoneMap.action_legal m g x y a = false) ∧
    (m.get_best_action x y g ≠ .Stay →
      m.get_best_action x y g ∈ PheromoneMap.moving_actions ∧
      PheromoneMap.action_legal m g x y (m.get_best_action x y g) = true) ∧
    ((∀ a ∈ PheromoneMap.moving_actions, PheromoneMap.action_legal m g x y a = true) →
      m.get_q x y .Down = m.get_q x y .Up →
      m.get_q x y .Left = m.get_q x y .Up →
      m.get_q x y .Right = m.get_q x y .Up →
      m.get_best_action x y g = .Up) ∧
    (0 < x → 0 < y →
      g.is_walkable x (y - 1) = false → g.is_walkable x (y + 1) = false →
      g.is_walkable (x - 1) y = false → g.is_walkable (x + 1) y = false →
      m.get_best_action x y g = .Stay) := by
  have hstay_of_all : (∀ a ∈ PheromoneMap.moving_actions,
      PheromoneMap.action_legal m g x y a = false) →
      m.get_best_action x y g = .Stay := by
    intro hall
    exact get_best_action_of_none m g x y
      ((foldl_bestStep_none_iff m g x y _ _).mpr ⟨rfl, hall⟩)
  refine ⟨?_, ?_, ?_, ?_⟩
  · constructor
    · intro hstay a ha
      by_contra hleg
      have hleg' : PheromoneMap.action_legal m g x y a = true := by
        cases hx : PheromoneMap.action_legal m g x y a
        · exact absurd hx hleg
        · rfl
      exact (get_best_action_ne_stay_of_legal m g x y a ha hleg').1 hstay
    · exact hstay_of_all
  · intro hne
    by_cases hall : ∀ a ∈ PheromoneMap.moving_actions,
        PheromoneMap.action_legal m g x y a = false
    · exact absurd (hstay_of_all hall) hne
    · push_neg at hall
      obtain ⟨a, ha, hleg⟩ := hall
      have hleg' : PheromoneMap.action_legal m g x y a = true := by
        cases hx : PheromoneMap.action_legal m g x y a
        · exact absurd hx hleg
        · rfl
      exact (get_best_action_ne_stay_of_legal m g x y a ha hleg').2
  · intro hall hd hl hr
    have hU := hall .Up (by simp [PheromoneMap.moving_actions])
    have hD := hall .Down (by simp [PheromoneMap.moving_actions])
    have hL := hall .Left (by simp [PheromoneMap.moving_actions])
    have hR := hall .Right (by simp [PheromoneMap.moving_actions])
    have s1 : PheromoneMap.bestStep m g x y (Action.Stay, none) .Up =
        (.Up, some (m.get_q x y .Up)) := by
      unfold PheromoneMap.bestStep
      rw [if_pos hU]
    have s2 : PheromoneMap.bestStep m g x y (.Up, some (m.get_q x y .Up)) .Down =
        (.Up, some (m.get_q x y .Up)) := by
      unfold PheromoneMap.bestStep
      rw [if_pos hD]
      dsimp only
      rw [hd, if_neg (lt_irrefl _)]
    have s3 : PheromoneMap.bestStep m g x y (.Up, some (m.get_q x y .Up)) .Left =
        (.Up, some (m.get_q x y .Up)) := by
      unfold PheromoneMap.bestStep
      rw [if_pos hL]
      dsimp only
      rw [hl, if_neg (lt_irrefl _)]
    have s4 : PheromoneMap.bestStep m g x y (.Up, some (m.get_q x y .Up)) .Right =
        (.Up, some (m.get_q x y .Up)) := by
      unfold PheromoneMap.bestStep
      rw [if_pos hR]
      dsimp only
      rw [hr, if_neg (lt_irrefl _)]
    have hfold : PheromoneMap.moving_actions.foldl
        (PheromoneMap.bestStep m g x y) (Action.Stay, none) =
        (.Up, some (m.get_q x y .Up)) := by
      unfold PheromoneMap.moving_actions
      rw [List.foldl_cons, s1, List.foldl_cons, s2, List.foldl_cons, s3,
        List.foldl_cons, s4, List.foldl_nil]
    have := get_best_action_of_some m g x y (m.get_q x y .Up) (by rw [hfold])
    rw [this, hfold]
  · intro hx hy hwu hwd hwl hwr
    apply hstay_of_all
    intro a ha
    simp only [PheromoneMap.moving_actions, List.mem_cons, List.mem_singleton] at ha
    rcases ha with rfl | rfl | rfl | rfl | h
    · simp [PheromoneMap.action_legal, PheromoneMap.moveDest, hwu]
    · simp [PheromoneMap.action_legal, PheromoneMap.moveDest, hwd]
    · simp [PheromoneMap.action_legal, PheromoneMap.moveDest, hwl]
    · simp [PheromoneMap.action_legal, PheromoneMap.moveDest, hwr]
    · cases h

/-- C5 witness: on a fresh 3×3 map over an all-default 3×3 grid, the four
candidates at the centre cell are all legal with equal Q-values and the
result is Up; and with concrete wall data the enclosure case yields Stay. -/
theorem get_best_action_spec_witness :
    exampleMap3.get_best_action 1 1 exampleGrid3 = .Up := by
  exact (get_best_action_spec exampleMap3 exampleGrid3 1 1).2.2.1
    (by decide) (by decide) (by decide) (by decide)

/-- C10: for an ant at the left border (`x = 0`) the Left action's target is
the ant's own cell (saturating coordinate subtraction), and symmetrically
for Up at the top border; consequently `get_best_action` at such a border
cell returns a movement action rather than Stay whenever the cell itself is
walkable, regardless of the other neighbours. -/
theorem border_saturation (a : Ant) (m : PheromoneMap) (g : Grid) (x y : Nat)
    (hpos : a.position = some (x, y)) :
    (x = 0 → a.get_target_position .Left = (x, y)) ∧
    (y = 0 → a.get_target_position .Up = (x, y)) ∧
    (x = 0 → x < m.width → y < m.height → g.is_walkable x y = true →
      m.get_best_action x y g ≠ .Stay ∧
        m.get_best_action x y g ∈ PheromoneMap.moving_actions) ∧
    (y = 0 → x < m.width → y < m.height → g.is_walkable x y = true →
      m.get_best_action x y g ≠ .Stay ∧
        m.get_best_action x y g ∈ PheromoneMap.moving_actions) := by
  refine ⟨?_, ?_, ?_, ?_⟩
  · intro hx
    subst hx
    unfold Ant.get_target_position
    rw [hpos]
    rfl
  · intro hy
    subst hy
    unfold Ant.get_target_position
    rw [hpos]
    rfl
  · intro hx hxw hyh hwalk
    subst hx
    have hleg : PheromoneMap.action_legal m g 0 y .Left = true := by
      simp [PheromoneMap.action_legal, PheromoneMap.moveDest, hwalk]
      omega
    have h := get_best_action_ne_stay_of_legal m g 0 y .Left
      (by simp [PheromoneMap.moving_actions]) hleg
    exact ⟨h.1, h.2.1⟩
  · intro hy hxw hyh hwalk
    subst hy
    have hleg : PheromoneMap.action_legal m g x 0 .Up = true := by
      simp [PheromoneMap.action_legal, PheromoneMap.moveDest, hwalk]
      omega
    have h := get_best_action_ne_stay_of_legal m g x 0 .Up
      (by simp [PheromoneMap.moving_actions]) hleg
    exact ⟨h.1, h.2.1⟩

/-- C10 witness: an ant at the origin of a 3×3 grid. -/
theorem border_saturation_witness :
    (mkAnt .PICKER (some (0, 0)) 0).get_target_position .Left = (0, 0) ∧
    exampleMap3.get_best_action 0 0 exampleGrid3 ≠ .Stay := by
  have h := border_saturation (mkAnt .PICKER (some (0, 0)) 0)
    exampleMap3 exampleGrid3 0 0 (by decide)
  exact ⟨h.1 rfl, (h.2.2.1 rfl (by decide) (by decide) (by decide)).1⟩

/-- C9 (amended) witness. -/
theorem density_counters_spec_witness :
    (emptyMgr.compute_ant_density)[0]? = some 0 ∧
    (AntsGameManager.densityDec [3] 0)[0]? = some 2 ∧
    (AntsGameManager.densityInc [3] 0)[0]? = some 4 := by
  have h := density_counters_spec emptyMgr 0 [3] 0 3 (by decide) (by decide)
  refine ⟨?_, h.2.1, h.2.2⟩
  have h1 := h.1
  simpa using h1

theorem getD_set_self {α : Type} (l : List α) (i : Nat) (v d : α)
    (h : i < l.length) : (l.set i v).getD i d = v := by
  rw [List.getD_eq_getElem?_getD, List.getElem?_set_eq_of_lt v h]
  rfl

theorem getD_set_ne {α : Type} (l : List α) (i j : Nat) (v d : α)
    (h : i ≠ j) : (l.set i v).getD j d = l.getD j d := by
  rw [List.getD_eq_getElem?_getD, List.getElem?_set_ne h,
    ← List.getD_eq_getElem?_getD]

theorem getD_map_lt {α β : Type} (l : List α) (f : α → β) (i : Nat)
    (d : β) (d0 : α) (h : i < l.length) :
    (l.map f).getD i d = f (l.getD i d0) := by
  rw [List.getD_eq_getElem?_getD, List.getD_eq_getElem?_getD,
    List.getElem?_map, List.getElem?_eq_getElem h]
  rfl

theorem getD_mem_of_lt {α : Type} (l : List α) (i : Nat) (d : α)
    (h : i < l.length) : l.getD i d ∈ l := by
  rw [List.getD_eq_getElem?_getD, List.getElem?_eq_getElem h]
  exact List.getElem_mem h

theorem read_write_same (d : List (List (List Rat))) (x y a : Nat) (v : Rat)
    (hx : x < d.length) (hy : y < (d.getD x []).length)
    (ha : a < ((d.getD x []).getD y []).length) :
    PheromoneMap.read (PheromoneMap.write d x y a v) x y a = v := by
  unfold PheromoneMap.read PheromoneMap.write
  rw [getD_set_self _ _ _ _ hx, getD_set_self _ _ _ _ hy, getD_set_self _ _ _ _ ha]

theorem read_write_ne (d : List (List (List Rat))) (x y a x2 y2 a2 : Nat) (v : Rat)
    (h : ¬(x = x2 ∧ y = y2 ∧ a = a2)) :
    PheromoneMap.read (PheromoneMap.write d x y a v) x2 y2 a2 =
      PheromoneMap.read d x2 y2 a2 := by
  unfold PheromoneMap.read PheromoneMap.write
  by_cases hx : x = x2
  · subst hx
    by_cases hxlen : x < d.length
    · rw [getD_set_self _ _ _ _ hxlen]
      by_cases hy : y = y2
      · subst hy
        by_cases hylen : y < (d.getD x []).length
        · rw [getD_set_self _ _ _ _ hylen]
          have ha : a ≠ a2 := by tauto
          rw [getD_set_ne _ _ _ _ _ ha]
        · rw [List.set_eq_of_length_le (by omega)]
      · rw [getD_set_ne _ _ _ _ _ hy]
    · rw [List.set_eq_of_length_le (by omega)]
  · rw [getD_set_ne _ _ _ _ _ hx]

theorem write_shape (W H : Nat) (d : List (List (List Rat))) (x y a : Nat) (v : Rat)
    (hd : dataShape W H d) :
    dataShape W H (PheromoneMap.write d x y a v) := by
  obtain ⟨hlen, hcols⟩ := hd
  by_cases hxlen : x < d.length
  · unfold PheromoneMap.write
    refine ⟨by simpa using hlen, ?_⟩
    intro col hcol
    rcases List.mem_or_eq_of_mem_set hcol with hmem | rfl
    · exact hcols col hmem
    · have hmem0 := getD_mem_of_lt d x [] hxlen
      obtain ⟨hH, hcells⟩ := hcols _ hmem0
      by_cases hylen : y < (d.getD x []).length
      · refine ⟨by simpa using hH, ?_⟩
        intro cell hcell
        rcases List.mem_or_eq_of_mem_set hcell with hmem2 | rfl
        · exact hcells cell hmem2
        · have hmem1 := getD_mem_of_lt (d.getD x []) y [] hylen
          have h5 := hcells _ hmem1
          simpa using h5
      · rw [List.set_eq_of_length_le (by omega)]
        exact ⟨hH, hcells⟩
  · unfold PheromoneMap.write
    rw [List.set_eq_of_length_le (by omega)]
    exact ⟨hlen, hcols⟩

theorem pendingTotal_cons_eq (e : (Nat × Nat × Nat) × Rat)
    (rest : List ((Nat × Nat × Nat) × Rat)) (x y a : Nat) (h : e.1 = (x, y, a)) :
    pendingTotal (e :: rest) x y a = e.2 + pendingTotal rest x y a := by
  unfold pendingTotal
  simp [List.filter_cons, h]

theorem pendingTotal_cons_ne (e : (Nat × Nat × Nat) × Rat)
    (rest : List ((Nat × Nat × Nat) × Rat)) (x y a : Nat) (h : ¬e.1 = (x, y, a)) :
    pendingTotal (e :: rest) x y a = pendingTotal rest x y a := by
  unfold pendingTotal
  simp [List.filter_cons, h]

theorem drain_read (W H : Nat) (pending : List ((Nat × Nat × Nat) × Rat))
    (d : List (List (List Rat))) (x y a : Nat)
    (hd : dataShape W H d) (hx : x < W) (hy : y < H) (ha : a < 5)
    (hkeys : ∀ e ∈ pending, e.1.1 < W ∧ e.1.2.1 < H ∧ e.1.2.2 < 5) :
    PheromoneMap.read
        (pending.foldl
          (fun d e => PheromoneMap.write d e.1.1 e.1.2.1 e.1.2.2
            (PheromoneMap.read d e.1.1 e.1.2.1 e.1.2.2 + e.2)) d) x y a =
      PheromoneMap.read d x y a + pendingTotal pending x y a ∧
    dataShape W H
      (pending.foldl
        (fun d e => PheromoneMap.write d e.1.1 e.1.2.1 e.1.2.2
          (PheromoneMap.read d e.1.1 e.1.2.1 e.1.2.2 + e.2)) d) := by
  induction pending generalizing d with
  | nil =>
      refine ⟨?_, hd⟩
      simp [pendingTotal]
  | cons e rest ih =>
      obtain ⟨hex, hey, hea⟩ := hkeys e (List.mem_cons_self e rest)
      have hd' : dataShape W H (PheromoneMap.write d e.1.1 e.1.2.1 e.1.2.2
          (PheromoneMap.read d e.1.1 e.1.2.1 e.1.2.2 + e.2)) :=
        write_shape W H d _ _ _ _ hd
      have hrest := ih _ hd' (fun e2 he2 => hkeys e2 (List.mem_cons_of_mem e he2))
      rw [List.foldl_cons]
      refine ⟨?_, hrest.2⟩
      rw [hrest.1]
      by_cases hkey : e.1 = (x, y, a)
      · have hex2 : e.1.1 = x := by rw [hkey]
        have hey2 : e.1.2.1 = y := by rw [hkey]
        have hea2 : e.1.2.2 = a := by rw [hkey]
        rw [hex2, hey2, hea2]
        have hxl : x < d.length := by
          rw [hd.1]
          exact hx
        have hcol := hd.2 _ (getD_mem_of_lt d x [] hxl)
        have hyl : y < (d.getD x []).length := by
          rw [hcol.1]
          exact hy
        have hal : a < ((d.getD x []).getD y []).length := by
          rw [hcol.2 _ (getD_mem_of_lt _ y [] hyl)]
          exact ha
        rw [read_write_same d x y a _ hxl hyl hal,
          pendingTotal_cons_eq e rest x y a hkey]
        ring
      · have hne : ¬(e.1.1 = x ∧ e.1.2.1 = y ∧ e.1.2.2 = a) := by
          intro hc
          apply hkey
          obtain ⟨h1, h2, h3⟩ := hc
          exact Prod.ext h1 (Prod.ext h2 h3)
        rw [read_write_ne d _ _ _ x y a _ hne,
          pendingTotal_cons_ne e rest x y a hkey]

theorem evap_read (d : List (List (List Rat))) (rate : Rat) (x y a : Nat)
    (hx : x < d.length) (hy : y < (d.getD x []).length)
    (ha : a < ((d.getD x []).getD y []).length) :
    PheromoneMap.read
        (d.map (fun col => col.map (fun cell =>
          cell.map (fun v => PheromoneMap.snap (v * (1 - rate)))))) x y a =
      PheromoneMap.snap (PheromoneMap.read d x y a * (1 - rate)) := by
  unfold PheromoneMap.read
  rw [getD_map_lt d _ x [] [] hx]
  rw [getD_map_lt _ _ y [] [] (by simpa using hy)]
  rw [getD_map_lt _ _ a 0 0 (by simpa using ha)]

/-- C7: `apply_tick(rate)` first drains the whole pending buffer, adding each
accumulated delta into its `(x, y, action)` slot, then multiplies every slot
by `(1 - rate)`, snapping results of absolute value below 0.001 to exactly 0;
with an empty pending buffer every stored value `v` becomes
`snap (v * (1 - rate))`. -/
theorem apply_tick_spec (m : PheromoneMap) (rate : Rat) (h : m.wfShape)
    (x y a : Nat) (hx : x < m.width) (hy : y < m.height) (ha : a < 5) :
    PheromoneMap.read (m.apply_tick rate).data x y a =
      PheromoneMap.snap ((PheromoneMap.read m.data x y a +
        pendingTotal m.pending_updates x y a) * (1 - rate)) ∧
    (m.apply_tick rate).pending_updates = [] ∧
    (m.pending_updates = [] →
      PheromoneMap.read (m.apply_tick rate).data x y a =
        PheromoneMap.snap (PheromoneMap.read m.data x y a * (1 - rate))) := by
  obtain ⟨hdata, hkeys⟩ := h
  have hdrain := drain_read m.width m.height m.pending_updates m.data x y a
    hdata hx hy ha hkeys
  have hb1 : x < (m.pending_updates.foldl
      (fun d e => PheromoneMap.write d e.1.1 e.1.2.1 e.1.2.2
        (PheromoneMap.read d e.1.1 e.1.2.1 e.1.2.2 + e.2)) m.data).length := by
    rw [hdrain.2.1]
    exact hx
  have hcolmem := hdrain.2.2 _ (getD_mem_of_lt _ x [] hb1)
  have hb2 : y < ((m.pending_updates.foldl
      (fun d e => PheromoneMap.write d e.1.1 e.1.2.1 e.1.2.2
        (PheromoneMap.read d e.1.1 e.1.2.1 e.1.2.2 + e.2)) m.data).getD x []).length := by
    rw [hcolmem.1]
    exact hy
  have hb3 : a < (((m.pending_updates.foldl
      (fun d e => PheromoneMap.write d e.1.1 e.1.2.1 e.1.2.2
        (PheromoneMap.read d e.1.1 e.1.2.1 e.1.2.2 + e.2)) m.data).getD x
          []).getD y []).length := by
    rw [hcolmem.2 _ (getD_mem_of_lt _ y [] hb2)]
    exact ha
  have hmain : PheromoneMap.read (m.apply_tick rate).data x y a =
      PheromoneMap.snap ((PheromoneMap.read m.data x y a +
        pendingTotal m.pending_updates x y a) * (1 - rate)) := by
    show PheromoneMap.read
        ((m.pending_updates.foldl
          (fun d e => PheromoneMap.write d e.1.1 e.1.2.1 e.1.2.2
            (PheromoneMap.read d e.1.1 e.1.2.1 e.1.2.2 + e.2)) m.data).map
          (fun col => col.map (fun cell =>
            cell.map (fun v => PheromoneMap.snap (v * (1 - rate)))))) x y a = _
    rw [evap_read _ rate x y a hb1 hb2 hb3, hdrain.1]
  refine ⟨hmain, rfl, ?_⟩
  intro hemp
  rw [hmain, hemp]
  unfold pendingTotal
  simp

/-- C7 witness: a 1×1 map with the single pending delta 5 at the Stay slot. -/
theorem apply_tick_spec_witness :
    (examplePending.apply_tick 0).pending_updates = [] ∧
    PheromoneMap.read (examplePending.apply_tick 0).data 0 0 4 =
      PheromoneMap.snap ((PheromoneMap.read examplePending.data 0 0 4 +
        pendingTotal examplePending.pending_updates 0 0 4) * (1 - 0)) := by
  have h := apply_tick_spec examplePending 0 (by decide) 0 0 4
    (by decide) (by decide) (by decide)
  exact ⟨h.2.1, h.1⟩

/-- C6: on a move, a FINDING ant entering a food-source cell with positive
amount decrements exactly that tile's amount by one, fills its charge to
`maximal_charge`, switches to RETURNING and queues half the configured food
reward at the destination's Stay slot on the food map (the nest map
untouched); a RETURNING ant entering the nest deposits its whole charge into
the nest's `stored_food`, resets its charge to 0, switches to FINDING and
queues the boost on the nest map (the food map untouched); the only tile
mutated is the food tile respectively the nest tile. -/
theorem handle_interactions_spec (grid : Grid) (ant : Ant) (nx ny : Nat)
    (pf pn : PheromoneMap) (config : SimulationConfig) :
    (∀ tile amount, ant.mode = .FINDING →
      grid.get_tile (nx, ny) = some tile →
      tile.tile_type = .FoodSource amount → 0 < amount →
      AntsGameManager.handle_interactions grid ant nx ny pf pn config =
        (grid.set_tile (nx, ny) { tile with tile_type := .FoodSource (amount - 1) },
         { ant with current_charge := ant.maximal_charge, mode := .RETURNING },
         pf.queue_update nx ny .Stay (config.reward_food * (1 / 2)),
         pn)) ∧
    (ant.mode = .RETURNING → grid.is_nest nx ny = true →
      AntsGameManager.handle_interactions grid ant nx ny pf pn config =
        (grid.add_food_to_nest ant.current_charge,
         { ant with current_charge := 0, mode := .FINDING },
         pf,
         pn.queue_update nx ny .Stay (config.reward_food * (1 / 2)))) ∧
    (∀ np tile s e p f, grid.get_nest_position = some np →
      grid.get_tile np = some tile → tile.tile_type = .Nest s e p f →
      grid.add_food_to_nest ant.current_charge =
        grid.set_tile np
          { tile with tile_type := TileType.Nest (s + ant.current_charge) e p f }) := by
  refine ⟨?_, ?_, ?_⟩
  · intro tile amount hmode htile hty hamt
    have hfood : grid.has_food nx ny = true := by
      simp only [Grid.has_food, htile, Tile.has_food, hty]
      simpa using hamt
    simp only [AntsGameManager.handle_interactions, hmode, hfood, if_true, htile, hty,
      if_pos hamt]
  · intro hmode hnest
    simp only [AntsGameManager.handle_interactions, hmode, hnest, if_true]
  · intro np tile s e p f hnp htile hty
    simp only [Grid.add_food_to_nest, hnp, htile, Tile.add_food_to_nest, hty]

/-- C6 witness: a pickup on a food tile of amount 3 and a deposit of
charge 42 at the nest. -/
theorem handle_interactions_spec_witness :
    (AntsGameManager.handle_interactions interactGrid
        (mkAnt .PICKER (some (1, 0)) 0) 1 0 exampleMap3 exampleMap3
        exampleConfig).2.1.mode = .RETURNING ∧
    (AntsGameManager.handle_interactions interactGrid
        (mkAnt .PICKER (some (1, 0)) 0) 1 0 exampleMap3 exampleMap3
        exampleConfig).2.1.current_charge = 100 ∧
    (AntsGameManager.handle_interactions interactGrid
        (mkAnt .PICKER (some (1, 0)) 0) 1 0 exampleMap3 exampleMap3
        exampleConfig).1.get_tile (1, 0) =
      some { position := (1, 0), tile_type := .FoodSource 2 } ∧
    (AntsGameManager.handle_interactions interactGrid
        { mkAnt .PICKER (some (0, 0)) 0 with
            mode := .RETURNING, current_charge := 42 } 0 0 exampleMap3 exampleMap3
        exampleConfig).1.get_tile (0, 0) =
      some { position := (0, 0), tile_type := .Nest 42 5 5 5 } := by
  have h1 := (handle_interactions_spec interactGrid
      (mkAnt .PICKER (some (1, 0)) 0) 1 0 exampleMap3 exampleMap3
      exampleConfig).1 { position := (1, 0), tile_type := .FoodSource 3 } 3
      rfl (by decide) rfl (by decide)
  have h2 := (handle_interactions_spec interactGrid
      { mkAnt .PICKER (some (0, 0)) 0 with
          mode := .RETURNING, current_charge := 42 } 0 0 exampleMap3 exampleMap3
      exampleConfig).2.1 rfl (by decide)
  rw [h1, h2]
  refine ⟨rfl, rfl, by decide, by decide⟩

theorem countP_set_exchange {α : Type} (l : List α) (j : Nat) (a b : α) (p : α → Bool)
    (h : l[j]? = some a) :
    (l.set j b).countP p + (if p a then 1 else 0) =
      l.countP p + (if p b then 1 else 0) := by
  induction l generalizing j with
  | nil => simp at h
  | cons x xs ih =>
    cases j with
    | zero =>
        simp only [List.getElem?_cons_zero, Option.some.injEq] at h
        subst h
        simp only [List.set_cons_zero, List.countP_cons]
        omega
    | succ j =>
        simp only [List.getElem?_cons_succ] at h
        simp only [List.set_cons_succ, List.countP_cons]
        have := ih j h
        omega

theorem countP_pos_of_getElem? {α : Type} (l : List α) (j : Nat) (a : α)
    (p : α → Bool) (h : l[j]? = some a) (hp : p a = true) : 1 ≤ l.countP p := by
  have hm : a ∈ l := List.getElem?_mem h
  exact List.countP_pos_iff.mpr ⟨a, hm, hp⟩

theorem flatIdx_lt (w h : Nat) (c : Nat × Nat) (h1 : c.1 < w) (h2 : c.2 < h) :
    flatIdx w c < w * h := by
  unfold flatIdx
  calc c.2 * w + c.1 < c.2 * w + w := by omega
  _ = (c.2 + 1) * w := by ring
  _ ≤ h * w := Nat.mul_le_mul_right w h2
  _ = w * h := Nat.mul_comm h w

theorem flatIdx_inj (w : Nat) (p q : Nat × Nat) (hp : p.1 < w) (hq : q.1 < w)
    (h : flatIdx w p = flatIdx w q) : p = q := by
  unfold flatIdx at h
  have h1 : (p.1 + p.2 * w) % w = p.1 % w := Nat.add_mul_mod_self_right p.1 p.2 w
  have h2 : (q.1 + q.2 * w) % w = q.1 % w := Nat.add_mul_mod_self_right q.1 q.2 w
  have hac : p.1 = q.1 := by
    rw [← Nat.mod_eq_of_lt hp, ← Nat.mod_eq_of_lt hq, ← h1, ← h2]
    congr 1
    omega
  have hw : 0 < w := Nat.lt_of_le_of_lt (Nat.zero_le p.1) hp
  have hm : p.2 * w = q.2 * w := by omega
  have hbd : p.2 = q.2 := Nat.eq_of_mul_eq_mul_right hw hm
  exact Prod.ext hac hbd

theorem densityDec_length (d : List Nat) (i : Nat) :
    (AntsGameManager.densityDec d i).length = d.length := by
  unfold AntsGameManager.densityDec
  split <;> simp

theorem densityInc_length (d : List Nat) (i : Nat) :
    (AntsGameManager.densityInc d i).length = d.length := by
  unfold AntsGameManager.densityInc
  split <;> simp

theorem densityDec_getD_self (d : List Nat) (i : Nat) (hi : i < d.length) :
    (AntsGameManager.densityDec d i).getD i 0 = d.getD i 0 - 1 := by
  unfold AntsGameManager.densityDec
  rw [if_pos hi, getD_set_self _ _ _ _ hi]

theorem densityDec_getD_ne (d : List Nat) (i j : Nat) (hne : i ≠ j) :
    (AntsGameManager.densityDec d i).getD j 0 = d.getD j 0 := by
  unfold AntsGameManager.densityDec
  split
  · exact getD_set_ne _ _ _ _ _ hne
  · rfl

theorem densityInc_getD_self (d : List Nat) (i : Nat) (hi : i < d.length) :
    (AntsGameManager.densityInc d i).getD i 0 = (d.getD i 0 + 1) % 256 := by
  unfold AntsGameManager.densityInc
  rw [if_pos hi, getD_set_self _ _ _ _ hi]

theorem densityInc_getD_ne (d : List Nat) (i j : Nat) (hne : i ≠ j) :
    (AntsGameManager.densityInc d i).getD j 0 = d.getD j 0 := by
  unfold AntsGameManager.densityInc
  split
  · exact getD_set_ne _ _ _ _ _ hne
  · rfl

theorem densityDec_le (d : List Nat) (i : Nat) (hmax : ∀ v ∈ d, v ≤ 10) :
    ∀ v ∈ AntsGameManager.densityDec d i, v ≤ 10 := by
  unfold AntsGameManager.densityDec
  split
  · intro v hv
    rcases List.mem_or_eq_of_mem_set hv with hm | rfl
    · exact hmax v hm
    · have := hmax _ (getD_mem_of_lt d i 0 (by omega))
      omega
  · exact hmax

theorem densityInc_le (d : List Nat) (i : Nat) (hmax : ∀ v ∈ d, v ≤ 10)
    (hlt : d.getD i 0 < 10) : ∀ v ∈ AntsGameManager.densityInc d i, v ≤ 10 := by
  unfold AntsGameManager.densityInc
  split
  · intro v hv
    rcases List.mem_or_eq_of_mem_set hv with hm | rfl
    · exact hmax v hm
    · omega
  · exact hmax

theorem densityDec_getD_le (d : List Nat) (i j : Nat) :
    (AntsGameManager.densityDec d i).getD j 0 ≤ d.getD j 0 := by
  by_cases hij : i = j
  · subst hij
    by_cases hi : i < d.length
    · rw [densityDec_getD_self d i hi]
      omega
    · unfold AntsGameManager.densityDec
      rw [if_neg hi]
  · rw [densityDec_getD_ne d i j hij]

theorem option_eq_some_getD {α : Type} (o : Option α) (z : α)
    (h : o.isSome = true) : o = some (o.getD z) := by
  cases o with
  | none => cases h
  | some v => rfl

theorem handle_interactions_position (grid : Grid) (a : Ant) (nx ny : Nat)
    (pf pn : PheromoneMap) (config : SimulationConfig) :
    (AntsGameManager.handle_interactions grid a nx ny pf pn config).2.1.position =
      a.position := by
  unfold AntsGameManager.handle_interactions
  repeat' first
  | split
  | rfl

theorem ant_step_outcome (params : QLearningParams) (config : SimulationConfig)
    (w h : Nat) (oracle : Nat → Rat × Fin 4)
    (st : AntsGameManager.StepState) (i : Nat) :
    ((AntsGameManager.ant_step params config w h oracle st i).ants = st.ants ∧
      (AntsGameManager.ant_step params config w h oracle st i).density = st.density) ∨
    (∃ ant a2, st.ants[i]? = some ant ∧ a2.position = ant.position ∧
      (AntsGameManager.ant_step params config w h oracle st i).ants = st.ants.set i a2 ∧
      (AntsGameManager.ant_step params config w h oracle st i).density = st.density) ∨
    (∃ ant pos a2, st.ants[i]? = some ant ∧ ant.position = some pos ∧
      a2.position = none ∧
      (AntsGameManager.ant_step params config w h oracle st i).ants = st.ants.set i a2 ∧
      (AntsGameManager.ant_step params config w h oracle st i).density =
        AntsGameManager.densityDec st.density (flatIdx w pos)) ∨
    (∃ ant pos a2 q, st.ants[i]? = some ant ∧ ant.position = some pos ∧
      a2.position = some q ∧ q.1 < w ∧ q.2 < h ∧
      st.density.getD (flatIdx w q) 0 < 10 ∧
      (AntsGameManager.ant_step params config w h oracle st i).ants = st.ants.set i a2 ∧
      (AntsGameManager.ant_step params config w h oracle st i).density =
        AntsGameManager.densityInc
          (AntsGameManager.densityDec st.density (flatIdx w pos)) (flatIdx w q)) := by
  suffices hstep : ∀ st2, st2 = AntsGameManager.ant_step params config w h oracle st i →
      ((st2.ants = st.ants ∧ st2.density = st.density) ∨
      (∃ ant a2, st.ants[i]? = some ant ∧ a2.position = ant.position ∧
        st2.ants = st.ants.set i a2 ∧ st2.density = st.density) ∨
      (∃ ant pos a2, st.ants[i]? = some ant ∧ ant.position = some pos ∧
        a2.position = none ∧ st2.ants = st.ants.set i a2 ∧
        st2.density = AntsGameManager.densityDec st.density (flatIdx w pos)) ∨
      (∃ ant pos a2 q, st.ants[i]? = some ant ∧ ant.position = some pos ∧
        a2.position = some q ∧ q.1 < w ∧ q.2 < h ∧
        st.density.getD (flatIdx w q) 0 < 10 ∧
        st2.ants = st.ants.set i a2 ∧
        st2.density = AntsGameManager.densityInc
          (AntsGameManager.densityDec st.density (flatIdx w pos)) (flatIdx w q))) by
    exact hstep _ rfl
  intro st2 hst2
  unfold AntsGameManager.ant_step at hst2
  cases hg : st.ants[i]? with
  | none =>
      simp only [hg] at hst2
      subst hst2
      exact Or.inl ⟨rfl, rfl⟩
  | some ant =>
      simp only [hg] at hst2
      cases hpos : ant.position with
      | none =>
          simp only [hpos] at hst2
          subst hst2
          exact Or.inl ⟨rfl, rfl⟩
      | some pos =>
          simp only [hpos] at hst2
          by_cases hcd : ant.cooldown > 0
          · rw [if_pos hcd] at hst2
            subst hst2
            refine Or.inr (Or.inl ⟨ant,
              { ant_type := ant.ant_type, maximal_charge := ant.maximal_charge,
                current_charge := ant.current_charge,
                seconds_for_movement := ant.seconds_for_movement,
                cooldown := ant.cooldown - 1, scope := ant.scope,
                mode := ant.mode, position := some pos },
              rfl, hpos.symm, rfl, rfl⟩)
          · rw [if_neg hcd] at hst2
            dsimp only at hst2
            split at hst2
            · rename_i hma
              split at hst2
              · subst hst2
                refine Or.inr (Or.inr (Or.inl
                  ⟨ant, pos,
                    { ant_type := ant.ant_type, maximal_charge := ant.maximal_charge,
                      current_charge := ant.current_charge,
                      seconds_for_movement := ant.seconds_for_movement,
                      cooldown := ant.seconds_for_movement, scope := ant.scope,
                      mode := ant.mode, position := none },
                    rfl, hpos, rfl, rfl, rfl⟩))
              · have hma2 := hma
                simp only [Bool.and_eq_true, Bool.not_eq_true',
                  Bool.and_eq_false_iff, Bool.or_eq_false_iff, Bool.or_eq_true,
                  Bool.not_eq_false', decide_eq_false_iff_not,
                  decide_eq_true_eq, not_le, not_lt] at hma2
                have hilen : i < st.ants.length :=
                  (List.getElem?_eq_some_iff.mp hg).1
                refine Or.inr (Or.inr (Or.inr
                  ⟨ant, pos, st2.ants.getD i ant,
                    (st2.ants.getD i ant).position.getD (0, 0),
                    rfl, hpos, ?mpos, ?mq1, ?mq2, ?mdlt, ?mants, ?mdens⟩))
                case mants =>
                  rw [hst2]
                  dsimp only
                  rw [getD_set_self _ _ _ _ hilen]
                case mpos =>
                  apply option_eq_some_getD
                  rw [hst2]
                  dsimp only
                  rw [getD_set_self _ _ _ _ hilen, handle_interactions_position]
                  rfl
                case mdens =>
                  rw [hst2]
                  dsimp only
                  rw [getD_set_self _ _ _ _ hilen, handle_interactions_position]
                  rfl
                case mq1 =>
                  rw [hst2]
                  dsimp only
                  rw [getD_set_self _ _ _ _ hilen, handle_interactions_position]
                  simp only [Ant.move_to, Option.getD_some]
                  exact hma2.1.1.1.1
                case mq2 =>
                  rw [hst2]
                  dsimp only
                  rw [getD_set_self _ _ _ _ hilen, handle_interactions_position]
                  simp only [Ant.move_to, Option.getD_some]
                  exact hma2.1.1.1.2
                case mdlt =>
                  rw [hst2]
                  dsimp only
                  rw [getD_set_self _ _ _ _ hilen, handle_interactions_position]
                  simp only [Ant.move_to, Option.getD_some, flatIdx]
                  have hb := hma2.1.1.1
                  rcases hma2.1.2 with hout | hlt
                  · exact absurd hout (by omega)
                  · exact hlt
            · rename_i hma
              subst hst2
              refine Or.inr (Or.inl ⟨ant,
                { ant_type := ant.ant_type, maximal_charge := ant.maximal_charge,
                  current_charge := ant.current_charge,
                  seconds_for_movement := ant.seconds_for_movement,
                  cooldown := ant.seconds_for_movement, scope := ant.scope,
                  mode := ant.mode, position := some pos },
                rfl, hpos.symm, rfl, rfl⟩)

theorem cellCount_set_exchange (ants : List Ant) (i : Nat) (a a2 : Ant)
    (h : ants[i]? = some a) (c : Nat × Nat) :
    cellCount (ants.set i a2) c + (if a.position = some c then 1 else 0) =
      cellCount ants c + (if a2.position = some c then 1 else 0) := by
  have hx := countP_set_exchange ants i a a2
    (fun b => decide (b.position = some c)) h
  simpa [cellCount, decide_eq_true_eq] using hx

theorem antInBounds_some (w h : Nat) (a : Ant) (p : Nat × Nat)
    (hb : antInBounds w h a = true) (hp : a.position = some p) :
    p.1 < w ∧ p.2 < h := by
  unfold antInBounds at hb
  rw [hp] at hb
  simpa using hb

theorem flatIdx_ne (w : Nat) (p q : Nat × Nat) (hp1 : p.1 < w) (hq1 : q.1 < w)
    (hne : p ≠ q) : flatIdx w p ≠ flatIdx w q :=
  fun hcon => hne (flatIdx_inj w p q hp1 hq1 hcon)

theorem getD_le_of_forall (d : List Nat) (i : Nat) (hmax : ∀ v ∈ d, v ≤ 10) :
    d.getD i 0 ≤ 10 := by
  by_cases hi : i < d.length
  · exact hmax _ (getD_mem_of_lt d i 0 hi)
  · rw [List.getD_eq_getElem?_getD, List.getElem?_eq_none (by omega)]
    simp

theorem ant_step_preserves_inv (params : QLearningParams) (config : SimulationConfig)
    (w h : Nat) (oracle : Nat → Rat × Fin 4) (e : Nat × Nat → Nat)
    (he : ∀ c, e c ≤ 1) (st : AntsGameManager.StepState) (i : Nat)
    (hinv : StepInv w h e st) :
    StepInv w h e (AntsGameManager.ant_step params config w h oracle st i) := by
  obtain ⟨hlen, hmax, hbnd, hcnt⟩ := hinv
  unfold StepInv
  rcases ant_step_outcome params config w h oracle st i with
    ⟨ha, hd⟩ |
    ⟨ant, a2, hg, hp2, ha, hd⟩ |
    ⟨ant, pos, a2, hg, hp, hp2, ha, hd⟩ |
    ⟨ant, pos, a2, q, hg, hp, hp2, hq1, hq2, hqd, ha, hd⟩
  · rw [ha, hd]
    exact ⟨hlen, hmax, hbnd, hcnt⟩
  · rw [ha, hd]
    refine ⟨hlen, hmax, ?_, ?_⟩
    · intro b hb
      rcases List.mem_or_eq_of_mem_set hb with hm | rfl
      · exact hbnd b hm
      · have hba := hbnd ant (List.getElem?_mem hg)
        unfold antInBounds at hba ⊢
        rw [hp2]
        exact hba
    · intro c hc1 hc2
      have hex := cellCount_set_exchange st.ants i ant a2 hg c
      rw [hp2] at hex
      have hb := hcnt c hc1 hc2
      omega
  · have hposb := antInBounds_some w h ant pos (hbnd ant (List.getElem?_mem hg)) hp
    have hflt : flatIdx w pos < st.density.length := by
      rw [hlen]
      exact flatIdx_lt w h pos hposb.1 hposb.2
    rw [ha, hd]
    refine ⟨by rw [densityDec_length]; exact hlen, densityDec_le _ _ hmax, ?_, ?_⟩
    · intro b hb
      rcases List.mem_or_eq_of_mem_set hb with hm | rfl
      · exact hbnd b hm
      · unfold antInBounds
        rw [hp2]
    · intro c hc1 hc2
      have hex := cellCount_set_exchange st.ants i ant a2 hg c
      rw [hp, hp2] at hex
      have hb := hcnt c hc1 hc2
      by_cases hpc : pos = c
      · subst hpc
        have hone : 1 ≤ cellCount st.ants pos := by
          apply countP_pos_of_getElem? st.ants i ant _ hg
          simp [hp]
        rw [densityDec_getD_self _ _ hflt]
        simp at hex
        omega
      · rw [densityDec_getD_ne _ _ _
          (flatIdx_ne w pos c hposb.1 hc1 hpc)]
        simp [hpc] at hex
        omega
  · have hposb := antInBounds_some w h ant pos (hbnd ant (List.getElem?_mem hg)) hp
    have hflt : flatIdx w pos < st.density.length := by
      rw [hlen]
      exact flatIdx_lt w h pos hposb.1 hposb.2
    have hfltq : flatIdx w q < st.density.length := by
      rw [hlen]
      exact flatIdx_lt w h q hq1 hq2
    have hdecle := densityDec_getD_le st.density (flatIdx w pos) (flatIdx w q)
    rw [ha, hd]
    have hlen2 : (AntsGameManager.densityDec st.density (flatIdx w pos)).length =
        st.density.length := densityDec_length _ _
    refine ⟨by rw [densityInc_length, densityDec_length]; exact hlen,
      densityInc_le _ _ (densityDec_le _ _ hmax) (by omega), ?_, ?_⟩
    · intro b hb
      rcases List.mem_or_eq_of_mem_set hb with hm | rfl
      · exact hbnd b hm
      · unfold antInBounds
        rw [hp2]
        simpa using ⟨hq1, hq2⟩
    · intro c hc1 hc2
      have hex := cellCount_set_exchange st.ants i ant a2 hg c
      rw [hp, hp2] at hex
      have hb := hcnt c hc1 hc2
      by_cases hqc : q = c
      · subst hqc
        rw [densityInc_getD_self _ _ (by omega)]
        by_cases hpq : pos = q
        · subst hpq
          rw [densityDec_getD_self _ _ hflt]
          simp at hex
          have hle10 := getD_le_of_forall st.density (flatIdx w pos) hmax
          omega
        · rw [densityDec_getD_ne _ _ _
            (flatIdx_ne w pos q hposb.1 hq1 hpq)]
          simp [hpq] at hex
          omega
      · by_cases hpc : pos = c
        · subst hpc
          rw [densityInc_getD_ne _ _ _
            (flatIdx_ne w q pos hq1 hposb.1 (fun hcon => hqc hcon)),
            densityDec_getD_self _ _ hflt]
          simp [hqc] at hex
          have hone : 1 ≤ cellCount st.ants pos := by
            apply countP_pos_of_getElem? st.ants i ant _ hg
            simp [hp]
          omega
        · rw [densityInc_getD_ne _ _ _
            (flatIdx_ne w q c hq1 hc1 hqc),
            densityDec_getD_ne _ _ _
            (flatIdx_ne w pos c hposb.1 hc1 hpc)]
          simp [hpc, hqc] at hex
          omega

theorem foldl_ant_step_inv (params : QLearningParams) (config : SimulationConfig)
    (w h : Nat) (oracle : Nat → Rat × Fin 4) (e : Nat × Nat → Nat)
    (he : ∀ c, e c ≤ 1) (l : List Nat) (st : AntsGameManager.StepState)
    (hinv : StepInv w h e st) :
    StepInv w h e (l.foldl (AntsGameManager.ant_step params config w h oracle) st) := by
  induction l generalizing st with
  | nil => exact hinv
  | cons i l ih =>
      rw [List.foldl_cons]
      exact ih _ (ant_step_preserves_inv params config w h oracle e he st i hinv)

theorem findIdx?_some_elem (l : List Ant) (p : Ant → Bool) (j : Nat)
    (hfind : l.findIdx? p = some j) : ∃ a, l[j]? = some a ∧ p a = true := by
  obtain ⟨hlt, hp, -⟩ := List.findIdx?_eq_some_iff_getElem.mp hfind
  exact ⟨l[j], List.getElem?_eq_some_iff.mpr ⟨hlt, rfl⟩, hp⟩

theorem manage_smart_spawn_cases (m : AntsGameManager) (d : List Nat) (w : Nat) :
    (m.manage_smart_spawn d w).ants = m.ants ∨
    (∃ j a a2 np, m.grid.get_nest_position = some np ∧
      m.ants[j]? = some a ∧ a.position = none ∧ a2.position = some np ∧
      (m.manage_smart_spawn d w).ants = m.ants.set j a2) := by
  unfold AntsGameManager.manage_smart_spawn
  simp only []
  split
  · exact Or.inl rfl
  · split
    · exact Or.inl rfl
    · rename_i nest_pos hnp
      split
      · exact Or.inl rfl
      · split
        · rename_i idx hfind
          split
          · rename_i a ha
            obtain ⟨a0, ha0, hpred⟩ :=
              findIdx?_some_elem m.ants (AntsGameManager.spawnPred
                (AntsGameManager.targetType m.ants)) idx hfind
            rw [ha] at ha0
            have haa : a0 = a := by
              have := ha0
              simp only [Option.some.injEq] at this
              exact this.symm
            subst haa
            refine Or.inr ⟨idx, a0, _, nest_pos, hnp, ha, ?_, rfl, rfl⟩
            have hnone : a0.position.isNone = true := by
              unfold AntsGameManager.spawnPred at hpred
              simp only [Bool.and_eq_true] at hpred
              exact hpred.1
            exact Option.isNone_iff_eq_none.mp hnone
          · exact Or.inl rfl
        · split
          · split
            · rename_i idx hfall
              split
              · rename_i a ha
                obtain ⟨a0, ha0, hpred⟩ :=
                  findIdx?_some_elem m.ants (fun a => a.position.isNone) idx hfall
                rw [ha] at ha0
                have haa : a0 = a := by
                  have := ha0
                  simp only [Option.some.injEq] at this
                  exact this.symm
                subst haa
                refine Or.inr ⟨idx, a0, _, nest_pos, hnp, ha, ?_, rfl, rfl⟩
                exact Option.isNone_iff_eq_none.mp hpred
              · exact Or.inl rfl
            · exact Or.inl rfl
          · exact Or.inl rfl

theorem densityAccum_length (w : Nat) (d : List Nat) (a : Ant) :
    (AntsGameManager.densityAccum w d a).length = d.length := by
  unfold AntsGameManager.densityAccum
  split
  · rename_i pos heq
    by_cases hidx : pos.2 * w + pos.1 < d.length
    · simp [hidx]
    · simp [hidx]
  · rfl

theorem compute_ant_density_length (m : AntsGameManager) :
    m.compute_ant_density.length = m.grid.width * m.grid.height := by
  unfold AntsGameManager.compute_ant_density
  have hfold : ∀ (l : List Ant) (acc : List Nat),
      (l.foldl (AntsGameManager.densityAccum m.grid.width) acc).length =
        acc.length := by
    intro l
    induction l with
    | nil => intro acc; rfl
    | cons a l ih =>
        intro acc
        rw [List.foldl_cons, ih, densityAccum_length]
  rw [hfold]
  simp

theorem countP_inCell_eq_cellCount (w h : Nat) (ants : List Ant) (c : Nat × Nat)
    (hb : ∀ a ∈ ants, antInBounds w h a = true) (hc1 : c.1 < w) :
    ants.countP (inCell w (flatIdx w c)) = cellCount ants c := by
  unfold cellCount
  apply List.countP_congr
  intro a ha
  unfold inCell
  cases hpos : a.position with
  | none => simp
  | some p =>
      have hpb := antInBounds_some w h a p (hb a ha) hpos
      simp only [decide_eq_true_eq, Option.some.injEq]
      constructor
      · intro hflat
        exact (flatIdx_inj w p c hpb.1 hc1 hflat)
      · intro hpc
        rw [hpc]

theorem compute_density_cell (m : AntsGameManager) (c : Nat × Nat)
    (hb : ∀ a ∈ m.ants, antInBounds m.grid.width m.grid.height a = true)
    (hcap : ∀ c2 : Nat × Nat, cellCount m.ants c2 ≤ 10)
    (hc1 : c.1 < m.grid.width) (hc2 : c.2 < m.grid.height) :
    m.compute_ant_density.getD (flatIdx m.grid.width c) 0 = cellCount m.ants c := by
  have hlt := flatIdx_lt m.grid.width m.grid.height c hc1 hc2
  have hchar := compute_ant_density_getElem? m (flatIdx m.grid.width c) hlt
  have hcnt := countP_inCell_eq_cellCount m.grid.width m.grid.height m.ants c hb hc1
  rw [List.getD_eq_getElem?_getD, hchar]
  show (m.ants.countP (inCell m.grid.width (flatIdx m.grid.width c))) % 256 =
    cellCount m.ants c
  rw [hcnt]
  exact Nat.mod_eq_of_lt (lt_of_le_of_lt (hcap c) (by norm_num))

theorem compute_density_le (m : AntsGameManager)
    (hb : ∀ a ∈ m.ants, antInBounds m.grid.width m.grid.height a = true)
    (hcap : ∀ c2 : Nat × Nat, cellCount m.ants c2 ≤ 10) :
    ∀ v ∈ m.compute_ant_density, v ≤ 10 := by
  intro v hv
  obtain ⟨n, hn, hval⟩ := List.getElem_of_mem hv
  have hlen := compute_ant_density_length m
  have hnlt : n < m.grid.width * m.grid.height := by
    rw [← hlen]
    exact hn
  have hchar := compute_ant_density_getElem? m n hnlt
  have hvn : v = m.ants.countP (inCell m.grid.width n) % 256 := by
    have hsome : m.compute_ant_density[n]? = some v := by
      rw [List.getElem?_eq_getElem hn, hval]
    rw [hsome] at hchar
    exact Option.some.inj hchar
  have hw : 0 < m.grid.width := by
    rcases Nat.eq_zero_or_pos m.grid.width with h0 | h
    · rw [h0] at hnlt
      simp at hnlt
    · exact h
  have hc1 : n % m.grid.width < m.grid.width := Nat.mod_lt n hw
  have hflat : flatIdx m.grid.width (n % m.grid.width, n / m.grid.width) = n := by
    unfold flatIdx
    have hdm := Nat.div_add_mod n m.grid.width
    calc (n / m.grid.width) * m.grid.width + n % m.grid.width
        = m.grid.width * (n / m.grid.width) + n % m.grid.width := by
          rw [Nat.mul_comm]
    _ = n := hdm
  have hcnt : m.ants.countP (inCell m.grid.width n) =
      cellCount m.ants (n % m.grid.width, n / m.grid.width) := by
    have h2 := countP_inCell_eq_cellCount m.grid.width m.grid.height m.ants
      (n % m.grid.width, n / m.grid.width) hb hc1
    rw [hflat] at h2
    exact h2
  rw [hvn, hcnt]
  exact le_trans (Nat.mod_le _ _) (hcap _)

theorem get_nest_position_inBounds (g : Grid) (np : Nat × Nat) (hwf : g.wfTiles)
    (h : g.get_nest_position = some np) : np.1 < g.width ∧ np.2 < g.height := by
  unfold Grid.get_nest_position at h
  cases hf : g.tiles.find? (fun t => t.is_nest) with
  | none =>
      rw [hf] at h
      cases h
  | some t =>
      rw [hf] at h
      have hpos : t.position = np := by
        simpa using h
      subst hpos
      exact hwf t (List.mem_of_find?_eq_some hf)

/-- C1 counterexample: in the `densityMgr` scenario both cells of the 1×2
grid hold at most 10 ants before the tick (9 on the nest cell, 1 on the
other), yet after one `game_step` the nest cell holds more than 10 ants —
spawn admission places an ant on the nest without updating the provisional
density array, so the cap stated by the claim is exceeded. -/
theorem density_cap_counterexample :
    cellCount densityMgr.ants (0, 0) = 9 ∧
    cellCount densityMgr.ants (0, 1) = 1 ∧
    densityMgr.ants.length = 11 ∧
    10 < cellCount (densityMgr.game_step oracleOne).ants (0, 0) := by
  refine ⟨by decide, by decide, by decide, ?_⟩
  decide

/-- C1 (amended): the per-cell density cap is not a two-sided invariant of
`game_step` at 10 — one tick started from a state where every cell holds at
most 10 positioned on-grid ants ends with at most 11 ants on the nest cell
and at most 10 on every other cell, because spawn admission may place one
ant on the nest without updating the provisional density array that the
movement legality check reads. -/
theorem game_step_density_cap (m : AntsGameManager) (oracle : Nat → Rat × Fin 4)
    (hwf : m.grid.wfTiles)
    (hb : ∀ a ∈ m.ants, antInBounds m.grid.width m.grid.height a = true)
    (hcap : ∀ c : Nat × Nat, cellCount m.ants c ≤ 10) :
    ∀ c : Nat × Nat, cellCount (m.game_step oracle).ants c ≤ 11 ∧
      (m.grid.get_nest_position ≠ some c →
        cellCount (m.game_step oracle).ants c ≤ 10) := by
  set m1 : AntsGameManager := { m with rl_params :=
    { alpha := m.config.alpha, gamma := m.config.gamma,
      epsilon := m.config.epsilon } } with hm1
  set d := AntsGameManager.compute_ant_density m1 with hd
  set m2 := AntsGameManager.manage_smart_spawn m1 d m.grid.width with hm2
  set st0 : AntsGameManager.StepState :=
    { ants := m2.ants, grid := m2.grid, pheromones_food := m2.pheromones_food,
      pheromones_nest := m2.pheromones_nest, density := d, rix := 0 } with hst0
  set stN := (List.range m2.ants.length).foldl
    (AntsGameManager.ant_step m2.rl_params m2.config m.grid.width m.grid.height
      oracle) st0 with hstN
  have hga : (m.game_step oracle).ants = stN.ants := rfl
  have hm1a : m1.ants = m.ants := rfl
  have hb1 : ∀ a ∈ m1.ants, antInBounds m1.grid.width m1.grid.height a = true := hb
  have hcap1 : ∀ c : Nat × Nat, cellCount m1.ants c ≤ 10 := hcap
  have hdlen : d.length = m.grid.width * m.grid.height :=
    compute_ant_density_length m1
  have hdle : ∀ v ∈ d, v ≤ 10 := compute_density_le m1 hb1 hcap1
  have hdcell : ∀ c : Nat × Nat, c.1 < m.grid.width → c.2 < m.grid.height →
      d.getD (flatIdx m.grid.width c) 0 = cellCount m.ants c :=
    fun c h1 h2 => compute_density_cell m1 c hb1 hcap1 h1 h2
  have key : ∃ e : Nat × Nat → Nat, (∀ c2, e c2 ≤ 1) ∧
      (∀ c2, m.grid.get_nest_position ≠ some c2 → e c2 = 0) ∧
      StepInv m.grid.width m.grid.height e stN := by
    rcases manage_smart_spawn_cases m1 d m.grid.width with hsame |
      ⟨j, a, a2, np, hnp, hj, hanone, ha2, hset⟩
    · rw [← hm2] at hsame
      have hsa : st0.ants = m.ants := by
        show m2.ants = m.ants
        rw [hsame, hm1a]
      refine ⟨fun _ => 0, fun _ => Nat.zero_le 1, fun _ _ => rfl, ?_⟩
      rw [hstN]
      refine foldl_ant_step_inv _ _ _ _ _ _ (fun _ => Nat.zero_le 1) _ _ ?_
      refine ⟨hdlen, hdle, ?_, ?_⟩
      · intro a0 ha0
        rw [hsa] at ha0
        exact hb a0 ha0
      · intro c h1 h2
        show cellCount st0.ants c ≤ st0.density.getD (flatIdx m.grid.width c) 0 + 0
        rw [hsa]
        show cellCount m.ants c ≤ d.getD (flatIdx m.grid.width c) 0 + 0
        rw [hdcell c h1 h2]
        exact Nat.le_add_right _ 0
    · rw [← hm2] at hset
      have hnp2 : m.grid.get_nest_position = some np := hnp
      have hnpb := get_nest_position_inBounds m.grid np hwf hnp2
      refine ⟨fun c2 => if c2 = np then 1 else 0, ?_, ?_, ?_⟩
      · intro c2
        by_cases hc : c2 = np <;> simp [hc]
      · intro c2 hne
        have hcne : c2 ≠ np := fun hh => hne (by rw [hnp2, hh])
        simp [hcne]
      · rw [hstN]
        refine foldl_ant_step_inv _ _ _ _ _ _ ?_ _ _ ?_
        · intro c2
          by_cases hc : c2 = np <;> simp [hc]
        · refine ⟨hdlen, hdle, ?_, ?_⟩
          · intro a0 ha0
            have hsa : st0.ants = m1.ants.set j a2 := hset
            rw [hsa] at ha0
            rcases List.mem_or_eq_of_mem_set ha0 with hmem | hEq
            · exact hb a0 hmem
            · subst hEq
              unfold antInBounds
              rw [ha2]
              simp [hnpb.1, hnpb.2]
          · intro c h1 h2
            have hex := cellCount_set_exchange m1.ants j a a2 hj c
            rw [hanone, ha2] at hex
            simp at hex
            show cellCount m2.ants c ≤
              d.getD (flatIdx m.grid.width c) 0 + (if c = np then 1 else 0)
            rw [hset, hex, hm1a, hdcell c h1 h2]
            by_cases hceq : c = np
            · subst hceq
              simp
            · rw [if_neg (fun hh : np = c => hceq hh.symm), if_neg hceq]
  obtain ⟨e, he1, he0, hlenN, hmaxN, hbndN, hcntN⟩ := key
  intro c
  by_cases hcin : c.1 < m.grid.width ∧ c.2 < m.grid.height
  · have h1 := hcntN c hcin.1 hcin.2
    have h2 : stN.density.getD (flatIdx m.grid.width c) 0 ≤ 10 :=
      getD_le_of_forall _ _ hmaxN
    have h3 := he1 c
    constructor
    · rw [hga]
      omega
    · intro hne
      have h4 : e c = 0 := he0 c hne
      rw [hga]
      omega
  · have hzero : cellCount stN.ants c = 0 := by
      unfold cellCount
      rw [List.countP_eq_zero]
      intro a0 ha0
      simp only [decide_eq_true_eq]
      intro hpos
      exact hcin (antInBounds_some m.grid.width m.grid.height a0 c
        (hbndN a0 ha0) hpos)
    constructor
    · rw [hga, hzero]
      omega
    · intro hne
      rw [hga, hzero]
      omega

/-- C1 witness: the amended bound instantiated at the empty manager and the
origin cell. -/
theorem game_step_density_cap_witness :
    emptyMgr.grid.wfTiles ∧
    cellCount (emptyMgr.game_step oracleOne).ants (0, 0) ≤ 11 := by
  have hwf : emptyMgr.grid.wfTiles := by decide
  have hb : ∀ a ∈ emptyMgr.ants,
      antInBounds emptyMgr.grid.width emptyMgr.grid.height a = true := by
    intro a ha
    simp [emptyMgr, AntsGameManager.new, AntsGameManager.save_snapshot] at ha
  have hcap : ∀ c : Nat × Nat, cellCount emptyMgr.ants c ≤ 10 := by
    intro c
    show List.countP (fun a => decide (a.position = some c)) ([] : List Ant) ≤ 10
    simp
  exact ⟨hwf, (game_step_density_cap emptyMgr oracleOne hwf hb hcap (0, 0)).1⟩

end StudyAnts
